import Mathlib

/-!
# vtkMPICommunicator: lifecycle and blocking transfers

A shallow embedding of `Parallel/vtkMPICommunicator.cxx`.

* Communicator objects live in a heap indexed by address, so that a call whose
  argument aliases its receiver (`c->CopyFrom(c)`) is traced statement by
  statement exactly as the C++ does.
* The MPI library is external.  Every MPI function the file calls is a field of
  `Env`, giving the status it returns and the value it leaves in its output
  argument; each operation also reports the list of MPI calls it issued.
* Undefined behaviour (dereferencing a null pointer, signed overflow, a failed
  allocation) is the result `none`.
* Log output (`vtkWarningMacro`, `vtkErrorMacro`) and the modification time
  (`Modified()`) are not part of the model.
-/

namespace VtkMPI

/-! ## External types and constants -/

/-- The transport's context handle type `MPI_Comm`. -/
abbrev MPI_Comm := Int

/-- The transport's group handle type `MPI_Group`. -/
abbrev MPI_Group := Int

/-- One byte of a message buffer (`char`). -/
abbrev Byte := Nat

/-- The values of `mpi.h` constants and of `vtkMultiProcessController::ANY_SOURCE`;
they are declared outside this file and are taken as parameters. -/
structure Consts where
  MPI_SUCCESS : Int
  MPI_COMM_WORLD : MPI_Comm
  MPI_COMM_NULL : MPI_Comm
  MPI_ANY_SOURCE : Int
  ANY_SOURCE : Int
deriving DecidableEq

/-- The transport datatypes named in this file. -/
inductive MPI_Datatype
  | MPI_INT
  | MPI_UNSIGNED_LONG
  | MPI_CHAR
  | MPI_UNSIGNED_CHAR
  | MPI_FLOAT
  | MPI_DOUBLE
  | MPI_LONG_LONG
deriving DecidableEq

/-- The environment of a call: for each MPI function, the status it returns
together with the value found in its output argument afterwards (on a failed
call that value is whatever the variable then holds).  `Send` is given the
bytes of the buffer it is handed; `Recv` answers with the bytes it writes at
the start of the buffer it is handed.  `uninit` is the indeterminate content
of a freshly allocated `MPI_Comm`, `uninitByte` that of freshly allocated
scratch memory. -/
structure Env where
  Comm_size : MPI_Comm → Int × Int
  Comm_group : MPI_Comm → Int × MPI_Group
  Group_incl : MPI_Group → Int → List Int → Int × MPI_Group
  Comm_create : MPI_Comm → MPI_Group → Int × MPI_Comm
  Comm_dup : MPI_Comm → Int × MPI_Comm
  Send : List Byte → Int → MPI_Datatype → Int → Int → MPI_Comm → Int
  Recv : Int → MPI_Datatype → Int → Int → MPI_Comm → Int × List Byte
  uninit : MPI_Comm
  uninitByte : Nat → Byte

/-- A call made to the transport, with the arguments passed. -/
inductive Call
  | Comm_size (comm : MPI_Comm)
  | Comm_group (comm : MPI_Comm)
  | Group_incl (group : MPI_Group) (n : Int) (ranks : List Int)
  | Group_free (group : MPI_Group)
  | Comm_create (comm : MPI_Comm) (group : MPI_Group)
  | Comm_dup (comm : MPI_Comm)
  | Comm_free (comm : MPI_Comm)
  | Send (buf : List Byte) (count : Int) (datatype : MPI_Datatype) (dest tag : Int)
      (comm : MPI_Comm)
  | Recv (count : Int) (datatype : MPI_Datatype) (source tag : Int) (comm : MPI_Comm)
deriving DecidableEq

/-! ## The process group (external collaborator) -/

/-- Modelled from the spec: class `vtkMPIGroup` is not among the sources.  The
spec gives its contract: an ordered, duplicate-free sequence of integer process
ids with a count, indexed access and deep-copy construction. -/
structure vtkMPIGroup where
  ProcessIds : List Int
deriving DecidableEq

namespace vtkMPIGroup

/-- Modelled from the spec: `vtkMPIGroup::New()`, a group holding no id. -/
def New : vtkMPIGroup := ⟨[]⟩

/-- Modelled from the spec: `vtkMPIGroup::Initialize(int)`, which prepares the
group to receive that many ids; it holds none afterwards. -/
def Initialize (_g : vtkMPIGroup) (_numProcIds : Int) : vtkMPIGroup := ⟨[]⟩

/-- Modelled from the spec: `vtkMPIGroup::AddProcessId`, which appends an id to
the ordered sequence unless it is already a member (the sequence is
duplicate-free). -/
def AddProcessId (g : vtkMPIGroup) (processId : Int) : vtkMPIGroup :=
  if processId ∈ g.ProcessIds then g else ⟨g.ProcessIds ++ [processId]⟩

/-- Modelled from the spec: `vtkMPIGroup::GetNumberOfProcessIds`, the count. -/
def GetNumberOfProcessIds (g : vtkMPIGroup) : Int := g.ProcessIds.length

/-- Modelled from the spec: `vtkMPIGroup::GetProcessId`, indexed access; the
spec says nothing of positions outside the sequence, here `-1`. -/
def GetProcessId (g : vtkMPIGroup) (pos : Int) : Int :=
  if 0 ≤ pos then g.ProcessIds.getD pos.toNat (-1) else -1

/-- Modelled from the spec: `vtkMPIGroup::CopyFrom`, a deep copy of the id
sequence of the source into this group. -/
def CopyFrom (_g : vtkMPIGroup) (source : vtkMPIGroup) : vtkMPIGroup :=
  ⟨source.ProcessIds⟩

end vtkMPIGroup

/-! ## The communicator object -/

/-- The data members of `vtkMPICommunicator`.  `Handle` is the pointer
`MPI_Comm*`: `none` is the null pointer, `some c` points to the context `c`.
`Group` is the pointer to the group.  `Initialized` and `KeepHandle` are the
`int` flags, which the file only ever sets to 0 or 1. -/
structure vtkMPICommunicator where
  Handle : Option MPI_Comm
  Group : Option vtkMPIGroup
  Initialized : Bool
  KeepHandle : Bool
deriving DecidableEq

/-- An address of a communicator object. -/
abbrev Ptr := Nat

/-- The communicator objects of the process, by address. -/
abbrev Heap := Ptr → vtkMPICommunicator

/-- Assignment to the members of the object at `p`. -/
def Heap.modify (h : Heap) (p : Ptr) (f : vtkMPICommunicator → vtkMPICommunicator) : Heap :=
  Function.update h p (f (h p))

/-- The constructor `vtkMPICommunicator::vtkMPICommunicator()`: the state of a
freshly constructed communicator. -/
def vtkMPICommunicator.New : vtkMPICommunicator :=
  { Handle := none, Group := none, Initialized := false, KeepHandle := false }

/-- Modelled from the spec: the setter `SetGroup` generated by
`vtkCxxSetObjectMacro`, whose definition is not among the sources; it
replaces the group reference of the communicator (`none` for a null argument). -/
def SetGroup (h : Heap) (this : Ptr) (g : Option vtkMPIGroup) : Heap :=
  h.modify this (fun c => { c with Group := g })

/-- Modelled from the spec: the setter `KeepHandleOn`, declared in the class
header, which is not among the sources; it sets `keepHandle` to true. -/
def KeepHandleOn (h : Heap) (this : Ptr) : Heap :=
  h.modify this (fun c => { c with KeepHandle := true })

/-- Modelled from the spec: the setter `KeepHandleOff`, declared in the class
header, which is not among the sources; it sets `keepHandle` to false. -/
def KeepHandleOff (h : Heap) (this : Ptr) : Heap :=
  h.modify this (fun c => { c with KeepHandle := false })

/-- Assignment `this->Handle = v`. -/
def SetHandle (h : Heap) (this : Ptr) (v : Option MPI_Comm) : Heap :=
  h.modify this (fun c => { c with Handle := v })

/-- Assignment `this->Initialized = v`. -/
def SetInitialized (h : Heap) (this : Ptr) (v : Bool) : Heap :=
  h.modify this (fun c => { c with Initialized := v })

/-- The loop of `Initialize` filling `ranks[i] = group->GetProcessId(i)` for
`i = 0 .. nProcIds-1`. -/
def selectRanks (group : vtkMPIGroup) (nProcIds : Int) : List Int :=
  (List.range nProcIds.toNat).map (fun (i : Nat) => group.GetProcessId (i : Int))

/-- The method `vtkMPICommunicator::Initialize(mpiComm, group)`: return value, heap
afterwards, transport calls issued.  `none` when a null `Handle` of `mpiComm`
is dereferenced. -/
def Initialize (K : Consts) (E : Env) (h : Heap) (this mpiComm : Ptr)
    (group : vtkMPIGroup) : Option (Int × Heap × List Call) :=
  if (h this).Initialized then some (0, h, [])
  else if !(h mpiComm).Initialized then some (0, h, [])
  else
    let h := KeepHandleOff h this
    let nProcIds := group.GetNumberOfProcessIds
    if nProcIds ≤ 0 then some (0, h, [])
    else match (h mpiComm).Group with
    | none => some (0, h, [])
    | some parentGroup =>
      if nProcIds > parentGroup.GetNumberOfProcessIds then some (0, h, [])
      else
        let ranks := selectRanks group nProcIds
        match (h mpiComm).Handle with
        | none => none
        | some parentComm =>
          let r1 := E.Comm_group parentComm
          let superGroup := r1.2
          if r1.1 ≠ K.MPI_SUCCESS then
            some (0, h, [.Comm_group parentComm, .Group_free superGroup])
          else
            let r2 := E.Group_incl superGroup nProcIds ranks
            let subGroup := r2.2
            if r2.1 ≠ K.MPI_SUCCESS then
              some (0, h, [.Comm_group parentComm, .Group_incl superGroup nProcIds ranks,
                           .Group_free superGroup, .Group_free subGroup])
            else
              let h := SetHandle h this (some E.uninit)
              match (h mpiComm).Handle with
              | none => none
              | some parentComm2 =>
                let r3 := E.Comm_create parentComm2 subGroup
                if r3.1 ≠ K.MPI_SUCCESS then
                  let h := SetHandle h this none
                  some (0, h, [.Comm_group parentComm, .Group_incl superGroup nProcIds ranks,
                               .Group_free superGroup, .Comm_create parentComm2 subGroup,
                               .Group_free subGroup])
                else
                  let h := SetHandle h this (some r3.2)
                  let h := SetInitialized h this true
                  let h := SetGroup h this (some group)
                  some (1, h, [.Comm_group parentComm, .Group_incl superGroup nProcIds ranks,
                               .Group_free superGroup, .Comm_create parentComm2 subGroup,
                               .Group_free subGroup])

/-- The destructor `vtkMPICommunicator::~vtkMPICommunicator()` run on an object:
the transport calls it issues (the object ceases to exist). -/
def Destructor (K : Consts) (c : vtkMPICommunicator) : List Call :=
  match c.Handle with
  | none => []
  | some comm =>
    if !c.KeepHandle then
      if comm ≠ K.MPI_COMM_NULL then [.Comm_free comm] else []
    else []

/-- The method `vtkMPICommunicator::InitializeCopy(source)`; `source` may be the null
pointer (`none`).  Result `none`: the group pointer of the source is null where
the group copy reads through it. -/
def InitializeCopy (h : Heap) (this : Ptr) (source : Option Ptr) :
    Option (Heap × List Call) :=
  match source with
  | none => some (h, [])
  | some src =>
    let h := SetGroup h this none
    let group := vtkMPIGroup.New
    let h := SetGroup h this (some group)
    match (h src).Group with
    | none => none
    | some sourceGroup =>
      let h := SetGroup h this (some (group.CopyFrom sourceGroup))
      let calls : List Call :=
        match (h this).Handle with
        | none => []
        | some comm => if !(h this).KeepHandle then [.Comm_free comm] else []
      let h := SetHandle h this none
      let h := SetInitialized h this (h src).Initialized
      some (h, calls)

/-- The method `vtkMPICommunicator::CopyFrom(source)`.  Result `none`: a null pointer
is dereferenced. -/
def CopyFrom (E : Env) (h : Heap) (this : Ptr) (source : Option Ptr) :
    Option (Heap × List Call) :=
  match InitializeCopy h this source with
  | none => none
  | some (h, calls) =>
    match source with
    | none => none
    | some src =>
      match (h src).Handle with
      | none => some (h, calls)
      | some _ =>
        let h := KeepHandleOn h this
        let h := SetHandle h this (some E.uninit)
        match (h src).Handle with
        | none => none
        | some comm => some (SetHandle h this (some comm), calls)

/-- The method `vtkMPICommunicator::Duplicate(source)`.  Result `none`: a null pointer
is dereferenced.  After `MPI_Comm_dup` the new `MPI_Comm` holds what the call
left in it, whatever the status. -/
def Duplicate (K : Consts) (E : Env) (h : Heap) (this : Ptr) (source : Option Ptr) :
    Option (Heap × List Call) :=
  match InitializeCopy h this source with
  | none => none
  | some (h, calls) =>
    let h := KeepHandleOff h this
    match source with
    | none => none
    | some src =>
      match (h src).Handle with
      | none => some (h, calls)
      | some _ =>
        let h := SetHandle h this (some E.uninit)
        match (h src).Handle with
        | none => none
        | some comm =>
          let r := E.Comm_dup comm
          let h := SetHandle h this (some r.2)
          if r.1 ≠ K.MPI_SUCCESS then some (h, calls ++ [.Comm_dup comm])
          else some (h, calls ++ [.Comm_dup comm])

/-! ## The world communicator singleton -/

/-- The state of the process: the communicator objects, the address `next` at
which `vtkMPICommunicator::New()` constructs its next object (the objects
created so far live below it), and the static member
`vtkMPICommunicator::WorldCommunicator` (`none` is the null pointer). -/
structure Process where
  heap : Heap
  next : Ptr
  WorldCommunicator : Option Ptr

/-- The loop `for (i = 0; i < size; i++) comm->Group->AddProcessId(i)`. -/
def addProcessIds (g : vtkMPIGroup) (size : Int) : vtkMPIGroup :=
  (List.range size.toNat).foldl (fun g (i : Nat) => g.AddProcessId (i : Int)) g

/-- The static method `vtkMPICommunicator::GetWorldCommunicator()`: the pointer returned
(`none` is null), the process state afterwards, the transport calls issued.
On the failure path `comm->Delete()` destroys the object just created: its
destructor runs and its address is free again. -/
def GetWorldCommunicator (K : Consts) (E : Env) (P : Process) :
    Option Ptr × Process × List Call :=
  match P.WorldCommunicator with
  | some w => (some w, P, [])
  | none =>
    let comm := P.next
    let h := Function.update P.heap comm vtkMPICommunicator.New
    let group := vtkMPIGroup.New
    let h := SetHandle h comm (some E.uninit)
    let h := SetHandle h comm (some K.MPI_COMM_WORLD)
    let h := SetGroup h comm (some group)
    let r := E.Comm_size K.MPI_COMM_WORLD
    if r.1 ≠ K.MPI_SUCCESS then
      let h := SetHandle h comm none
      (none, { P with heap := h }, [Call.Comm_size K.MPI_COMM_WORLD] ++ Destructor K (h comm))
    else
      let size := r.2
      let h := SetGroup h comm (some (addProcessIds (group.Initialize size) size))
      let h := SetInitialized h comm true
      let h := KeepHandleOn h comm
      (some comm, { heap := h, next := comm + 1, WorldCommunicator := some comm },
        [.Comm_size K.MPI_COMM_WORLD])

/-! ## Blocking typed transfers -/

/-- The element types for which `Send` and `Receive` are overloaded. -/
inductive ElementType
  | int
  | unsignedLong
  | char
  | unsignedChar
  | float
  | double
  | vtkIdType
deriving DecidableEq

/-- The operator `sizeof` on the element types, for an LP64 platform with 64-bit ids. -/
def sizeofType : ElementType → Int
  | .int => 4
  | .unsignedLong => 8
  | .char => 1
  | .unsignedChar => 1
  | .float => 4
  | .double => 8
  | .vtkIdType => 8

/-- The static helper `getMPIType(vtkIdType*)` under `VTK_USE_64BIT_IDS`. -/
def getMPIType : MPI_Datatype := .MPI_LONG_LONG

/-- The element width and transport datatype each `Send` overload passes to `SendData`. -/
def sendOverload : ElementType → Int × MPI_Datatype
  | .int => (sizeofType .int, .MPI_INT)
  | .unsignedLong => (sizeofType .unsignedLong, .MPI_UNSIGNED_LONG)
  | .char => (sizeofType .char, .MPI_CHAR)
  | .unsignedChar => (sizeofType .unsignedChar, .MPI_UNSIGNED_CHAR)
  | .float => (sizeofType .float, .MPI_FLOAT)
  | .double => (sizeofType .double, .MPI_DOUBLE)
  | .vtkIdType => (sizeofType .vtkIdType, getMPIType)

/-- The element width and transport datatype each `Receive` overload passes to
`ReceiveData`. -/
def receiveOverload : ElementType → Int × MPI_Datatype
  | .int => (sizeofType .int, .MPI_INT)
  | .unsignedLong => (sizeofType .unsignedLong, .MPI_UNSIGNED_LONG)
  | .char => (sizeofType .char, .MPI_CHAR)
  | .unsignedChar => (sizeofType .unsignedChar, .MPI_UNSIGNED_CHAR)
  | .float => (sizeofType .float, .MPI_FLOAT)
  | .double => (sizeofType .double, .MPI_DOUBLE)
  | .vtkIdType => (sizeofType .vtkIdType, getMPIType)

/-- The `int` product `length*sizeoftype` as it reaches `Allocate(size_t)` and
`memcpy`.  `none`: the product overflows the 32-bit `int` (undefined), or it is
negative, which converted to `size_t` is a size no allocation can satisfy. -/
def byteCount (length sizeoftype : Int) : Option Nat :=
  let n := length * sizeoftype
  if n < -(2 ^ 31) ∨ 2 ^ 31 ≤ n then none
  else if n < 0 then none
  else some n.toNat

/-- The static method `vtkMPICommunicator::Allocate(size)` of a build without
`MPIPROALLOC`: `size` bytes of indeterminate content. -/
def Allocate (E : Env) (size : Nat) : List Byte :=
  (List.range size).map E.uninitByte

/-- The library call `memcpy(dst, src, n)`: the content of `dst` afterwards; `none` when
either buffer is shorter than `n` bytes. -/
def memcpy (dst src : List Byte) (n : Nat) : Option (List Byte) :=
  if n ≤ src.length ∧ n ≤ dst.length then some (src.take n ++ dst.drop n) else none

/-- The content of a buffer after the transport wrote `bytes` at its start. -/
def written (buf bytes : List Byte) : List Byte :=
  (bytes ++ buf.drop bytes.length).take buf.length

/-- The static function `SendData`: the status returned and the transport calls issued. -/
def SendData (E : Env) (data : List Byte) (length sizeoftype remoteProcessId tag : Int)
    (datatype : MPI_Datatype) (Handle : Option MPI_Comm) (useCopy : Int) :
    Option (Int × List Call) :=
  if useCopy ≠ 0 then
    match byteCount length sizeoftype with
    | none => none
    | some n =>
      let tmpData := Allocate E n
      match memcpy tmpData data n with
      | none => none
      | some tmpData =>
        match Handle with
        | none => none
        | some comm =>
          let retVal := E.Send tmpData length datatype remoteProcessId tag comm
          some (retVal, [.Send tmpData length datatype remoteProcessId tag comm])
  else
    match Handle with
    | none => none
    | some comm =>
      some (E.Send data length datatype remoteProcessId tag comm,
            [.Send data length datatype remoteProcessId tag comm])

/-- The static function `ReceiveData`: the status returned, the content of `data`
afterwards, the transport calls issued. -/
def ReceiveData (K : Consts) (E : Env) (data : List Byte)
    (length sizeoftype remoteProcessId tag : Int)
    (datatype : MPI_Datatype) (Handle : Option MPI_Comm) (useCopy : Int) :
    Option (Int × List Byte × List Call) :=
  let remoteProcessId :=
    if remoteProcessId = K.ANY_SOURCE then K.MPI_ANY_SOURCE else remoteProcessId
  if useCopy ≠ 0 then
    match byteCount length sizeoftype with
    | none => none
    | some n =>
      let tmpData := Allocate E n
      match Handle with
      | none => none
      | some comm =>
        let r := E.Recv length datatype remoteProcessId tag comm
        let retVal := r.1
        let tmpData := written tmpData r.2
        match memcpy data tmpData n with
        | none => none
        | some data => some (retVal, data, [.Recv length datatype remoteProcessId tag comm])
  else
    match Handle with
    | none => none
    | some comm =>
      let r := E.Recv length datatype remoteProcessId tag comm
      some (r.1, written data r.2, [.Recv length datatype remoteProcessId tag comm])

/-- The method `vtkMPICommunicator::CheckForMPIError(err)`. -/
def CheckForMPIError (K : Consts) (err : Int) : Int :=
  if err = K.MPI_SUCCESS then 1 else 0

/-- The overloads `vtkMPICommunicator::Send(T* data, length, remoteProcessId, tag)`;
`UseCopy` is the static member `vtkCommunicator::UseCopy`. -/
def Send (K : Consts) (E : Env) (this : vtkMPICommunicator) (UseCopy : Int)
    (ty : ElementType) (data : List Byte) (length remoteProcessId tag : Int) :
    Option (Int × List Call) :=
  match SendData E data length (sendOverload ty).1 remoteProcessId tag (sendOverload ty).2
      this.Handle UseCopy with
  | none => none
  | some (err, calls) => some (CheckForMPIError K err, calls)

/-- The overloads `vtkMPICommunicator::Receive(T* data, length, remoteProcessId, tag)`. -/
def Receive (K : Consts) (E : Env) (this : vtkMPICommunicator) (UseCopy : Int)
    (ty : ElementType) (data : List Byte) (length remoteProcessId tag : Int) :
    Option (Int × List Byte × List Call) :=
  match ReceiveData K E data length (receiveOverload ty).1 remoteProcessId tag
      (receiveOverload ty).2 this.Handle UseCopy with
  | none => none
  | some (err, data, calls) => some (CheckForMPIError K err, data, calls)

/-! ## Names for the transport steps of `Initialize` -/

/-- The transport group handle `Initialize` obtains from the parent context. -/
def superGroupOf (E : Env) (parentComm : MPI_Comm) : Int × MPI_Group :=
  E.Comm_group parentComm

/-- The transport subgroup `Initialize` builds for `group`. -/
def subGroupOf (E : Env) (parentComm : MPI_Comm) (group : vtkMPIGroup) : Int × MPI_Group :=
  E.Group_incl (E.Comm_group parentComm).2 group.GetNumberOfProcessIds group.ProcessIds

/-- The transport context `Initialize` creates for `group`. -/
def newCommOf (E : Env) (parentComm : MPI_Comm) (group : vtkMPIGroup) : Int × MPI_Comm :=
  E.Comm_create parentComm (subGroupOf E parentComm group).2

/-- The source rank `ReceiveData` passes to the transport. -/
def sourceRank (K : Consts) (remoteProcessId : Int) : Int :=
  if remoteProcessId = K.ANY_SOURCE then K.MPI_ANY_SOURCE else remoteProcessId

/-! ## Sequences of calls -/

/-- A call made by client code on the communicators of the process: object
creation, the world singleton accessor, and the three initializing methods,
each with the environment in which it runs. -/
inductive Op
  | New
  | GetWorldCommunicator (E : Env)
  | Initialize (E : Env) (this mpiComm : Ptr) (group : vtkMPIGroup)
  | CopyFrom (E : Env) (this source : Ptr)
  | Duplicate (E : Env) (this source : Ptr)

/-- The process before any communicator exists. -/
def Process.start : Process :=
  { heap := fun _ => vtkMPICommunicator.New, next := 0, WorldCommunicator := none }

/-- One call executed on the process.  `none`: the call uses an address that
holds no object, or dereferences a null pointer. -/
def exec (K : Consts) (P : Process) : Op → Option Process
  | .New =>
    some { P with heap := Function.update P.heap P.next vtkMPICommunicator.New,
                  next := P.next + 1 }
  | .GetWorldCommunicator E => some (GetWorldCommunicator K E P).2.1
  | .Initialize E this mpiComm group =>
    if this < P.next ∧ mpiComm < P.next then
      match Initialize K E P.heap this mpiComm group with
      | none => none
      | some r => some { P with heap := r.2.1 }
    else none
  | .CopyFrom E this source =>
    if this < P.next ∧ source < P.next then
      match CopyFrom E P.heap this (some source) with
      | none => none
      | some r => some { P with heap := r.1 }
    else none
  | .Duplicate E this source =>
    if this < P.next ∧ source < P.next then
      match Duplicate K E P.heap this (some source) with
      | none => none
      | some r => some { P with heap := r.1 }
    else none

/-- A sequence of calls executed in order. -/
def run (K : Consts) : Process → List Op → Option Process
  | P, [] => some P
  | P, op :: ops =>
    match exec K P op with
    | none => none
    | some P' => run K P' ops

/-! ## Invariants -/

/-- The invariant of the spec on one communicator: an initialized communicator
has a non-null handle and a group with at least one process id. -/
def WellFormed (c : vtkMPICommunicator) : Prop :=
  c.Initialized = true →
    c.Handle ≠ none ∧ ∃ g, c.Group = some g ∧ 0 < g.GetNumberOfProcessIds

/-- The calls for which the invariant is kept: the source of `CopyFrom` and
`Duplicate` is another object than the target, and a process count reported
with success is at least 1. -/
def Op.Admissible (K : Consts) : Op → Prop
  | .New => True
  | .GetWorldCommunicator E =>
    (E.Comm_size K.MPI_COMM_WORLD).1 = K.MPI_SUCCESS → 0 < (E.Comm_size K.MPI_COMM_WORLD).2
  | .Initialize _ _ _ _ => True
  | .CopyFrom _ this source => source ≠ this
  | .Duplicate _ this source => source ≠ this

/-- What holds of every communicator the calls can produce, aliased arguments
included: an uninitialized one has no handle; one with a handle has a group;
an initialized one whose group is not empty has a handle. -/
def Sound (c : vtkMPICommunicator) : Prop :=
  (c.Initialized = false → c.Handle = none) ∧
  (c.Handle ≠ none → c.Group ≠ none) ∧
  (c.Initialized = true → (∃ g, c.Group = some g ∧ 0 < g.GetNumberOfProcessIds) →
    c.Handle ≠ none)

/-! ## Release discipline for transport groups -/

/-- The discipline a sequence of transport calls keeps when it releases only
group handles it obtained: scanning the calls in order with the handles
`held` so far, a `MPI_Comm_group` or `MPI_Group_incl` that returns
`MPI_SUCCESS` adds its output to the handles held, and a `MPI_Group_free` must
name a handle held, which it then no longer holds. -/
def releasesOnlyObtained (K : Consts) (E : Env) : List MPI_Group → List Call → Bool
  | _, [] => true
  | held, .Comm_group comm :: rest =>
    if (E.Comm_group comm).1 = K.MPI_SUCCESS then
      releasesOnlyObtained K E ((E.Comm_group comm).2 :: held) rest
    else releasesOnlyObtained K E held rest
  | held, .Group_incl g n ranks :: rest =>
    if (E.Group_incl g n ranks).1 = K.MPI_SUCCESS then
      releasesOnlyObtained K E ((E.Group_incl g n ranks).2 :: held) rest
    else releasesOnlyObtained K E held rest
  | held, .Group_free g :: rest =>
    if g ∈ held then releasesOnlyObtained K E (held.erase g) rest else false
  | held, _ :: rest => releasesOnlyObtained K E held rest

/-- The transport calls with which the methods reset an existing handle
before taking that of a source: the condition `InitializeCopy` applies. -/
def releaseOnReset (c : vtkMPICommunicator) : List Call :=
  match c.Handle with
  | none => []
  | some comm => if !c.KeepHandle then [.Comm_free comm] else []

/-! ## Concrete inputs -/

/-- The constants as MPICH defines them. -/
def mpich : Consts :=
  { MPI_SUCCESS := 0, MPI_COMM_WORLD := 1140850688, MPI_COMM_NULL := 67108864,
    MPI_ANY_SOURCE := -2, ANY_SOURCE := -1 }

/-- An environment in which every transport call succeeds and the world has
four processes. -/
def envOk : Env :=
  { Comm_size := fun _ => (0, 4)
    Comm_group := fun c => (0, c + 1)
    Group_incl := fun g _ _ => (0, g + 1)
    Comm_create := fun c g => (0, c + g)
    Comm_dup := fun c => (0, c + 1)
    Send := fun _ _ _ _ _ _ => 0
    Recv := fun _ _ _ _ _ => (0, [])
    uninit := 0
    uninitByte := fun _ => 0 }

/-- An environment in which context creation and duplication fail with status 16. -/
def envCommFails : Env :=
  { envOk with
    Comm_create := fun _ _ => (16, 7)
    Comm_dup := fun _ => (16, 7) }

/-- An environment whose transport reports a world of no process. -/
def envEmptyWorld : Env := { envOk with Comm_size := fun _ => (0, 0) }

/-- An environment in which `MPI_Comm_group` fails with status 16, leaving 99
in the group variable. -/
def envGroupFails : Env := { envOk with Comm_group := fun _ => (16, 99) }

/-- An environment of a process outside the subgroup: `MPI_Comm_create`
succeeds and yields `MPI_COMM_NULL`. -/
def envNullComm : Env := { envOk with Comm_create := fun _ _ => (0, mpich.MPI_COMM_NULL) }

/-- The world communicator of a four-process run. -/
def world4 : vtkMPICommunicator :=
  { Handle := some mpich.MPI_COMM_WORLD, Group := some ⟨[0, 1, 2, 3]⟩,
    Initialized := true, KeepHandle := true }

/-- A heap holding the world communicator at address 0 and freshly constructed
communicators elsewhere. -/
def heap0 : Heap := fun p => if p = 0 then world4 else vtkMPICommunicator.New

/-- A sequence of admissible calls: the world singleton, a sub-communicator of
it, a copy of that one, and a duplicate of the world whose `MPI_Comm_dup` fails. -/
def demoOps : List Op :=
  [.GetWorldCommunicator envOk, .New, .Initialize envOk 1 0 ⟨[2, 0]⟩,
   .New, .CopyFrom envOk 2 1, .New, .Duplicate envCommFails 3 0]

/-- The process after `demoOps`. -/
def demoProcess : Process := (run mpich Process.start demoOps).getD Process.start

/-- Calls after which the communicator at address 1 is uninitialized with
`KeepHandle` on: the object at 2 copies itself, which gives it an empty group;
the object at 1 copies the world communicator, then the object at 2. -/
def keepOnOps : List Op :=
  [.GetWorldCommunicator envOk, .New, .New, .CopyFrom envOk 2 2,
   .CopyFrom envOk 1 0, .CopyFrom envOk 1 2]

/-- The process after `keepOnOps`. -/
def keepOnProcess : Process := (run mpich Process.start keepOnOps).getD Process.start

/-- Calls after which the communicator at address 1 owns a handle holding
`MPI_COMM_NULL`: a successful `Initialize` on a process outside the subgroup. -/
def nullCommOps : List Op :=
  [.GetWorldCommunicator envOk, .New, .Initialize envNullComm 1 0 ⟨[2, 0]⟩]

/-- The process after `nullCommOps`. -/
def nullCommProcess : Process := (run mpich Process.start nullCommOps).getD Process.start

/-- The process after the first call of `GetWorldCommunicator` in a world of
four processes: the world communicator lives at address 0. -/
def worldProcess : Process :=
  (run mpich Process.start [.GetWorldCommunicator envOk]).getD Process.start

/-! # Theorems -/

/-! ## Heap updates -/

/-- Reading the object just assigned to. -/
@[simp] theorem Heap.modify_same (h : Heap) (p : Ptr) (f : vtkMPICommunicator → vtkMPICommunicator) :
    (h.modify p f) p = f (h p) := by
  simp [Heap.modify]

/-- An assignment to one object leaves the others as they were. -/
theorem Heap.modify_other (h : Heap) (p q : Ptr) (f : vtkMPICommunicator → vtkMPICommunicator)
    (hne : q ≠ p) : (h.modify p f) q = h q := by
  simp [Heap.modify, Function.update_noteq hne]

/-! ## What each method leaves behind -/

/-- The rank array built by `Initialize` is the id sequence of the subgroup. -/
theorem selectRanks_eq (group : vtkMPIGroup) :
    selectRanks group group.GetNumberOfProcessIds = group.ProcessIds := by
  apply List.ext_getElem
  · simp [selectRanks, vtkMPIGroup.GetNumberOfProcessIds]
  · intro i h1 h2
    simp [selectRanks, vtkMPIGroup.GetProcessId, List.getElem?_eq_getElem h2]

/-- A call of `Initialize` that returns 1 leaves the target initialized. -/
theorem Initialize_one_initialized (K : Consts) (E : Env) (h : Heap) (this mpiComm : Ptr)
    (group : vtkMPIGroup) (h1 : Heap) (calls : List Call)
    (hfirst : Initialize K E h this mpiComm group = some (1, h1, calls)) :
    (h1 this).Initialized = true := by
  unfold Initialize at hfirst
  by_cases hI : (h this).Initialized = true
  · simp [hI] at hfirst
  by_cases hP : (h mpiComm).Initialized = true
  swap
  · simp [hI, hP] at hfirst
  by_cases h0 : group.GetNumberOfProcessIds ≤ 0
  · simp [hI, hP, h0] at hfirst
  simp only [hI, hP, h0, Bool.false_eq_true, if_false, Bool.not_true] at hfirst
  cases hG : (KeepHandleOff h this mpiComm).Group with
  | none => simp [hG] at hfirst
  | some pg =>
    simp only [hG] at hfirst
    by_cases hgt : group.GetNumberOfProcessIds > pg.GetNumberOfProcessIds
    · simp [hgt] at hfirst
    simp only [hgt, if_false] at hfirst
    cases hC : (KeepHandleOff h this mpiComm).Handle with
    | none => simp [hC] at hfirst
    | some pc =>
      simp only [hC] at hfirst
      split_ifs at hfirst with e1 e2
      · simp at hfirst
      · simp at hfirst
      · cases hC2 : (SetHandle (KeepHandleOff h this) this (some E.uninit) mpiComm).Handle with
        | none => simp [hC2] at hfirst
        | some pc2 =>
          simp only [hC2] at hfirst
          split_ifs at hfirst with e3
          · simp at hfirst
          · simp only [Option.some.injEq, Prod.mk.injEq] at hfirst
            obtain ⟨-, rfl, -⟩ := hfirst
            simp [SetGroup, SetInitialized]

/-- Past its precondition checks `Initialize` is the chain of the three
transport steps. -/
theorem Initialize_steps (K : Consts) (E : Env) (h : Heap) (this mpiComm : Ptr)
    (group pg : vtkMPIGroup) (pc : MPI_Comm)
    (hI : (h this).Initialized = false) (hP : (h mpiComm).Initialized = true)
    (hG : (h mpiComm).Group = some pg) (hC : (h mpiComm).Handle = some pc)
    (hpos : 0 < group.GetNumberOfProcessIds)
    (hle : group.GetNumberOfProcessIds ≤ pg.GetNumberOfProcessIds) :
    Initialize K E h this mpiComm group =
      if (superGroupOf E pc).1 ≠ K.MPI_SUCCESS then
        some (0, KeepHandleOff h this,
          [.Comm_group pc, .Group_free (superGroupOf E pc).2])
      else if (subGroupOf E pc group).1 ≠ K.MPI_SUCCESS then
        some (0, KeepHandleOff h this,
          [.Comm_group pc,
           .Group_incl (superGroupOf E pc).2 group.GetNumberOfProcessIds group.ProcessIds,
           .Group_free (superGroupOf E pc).2, .Group_free (subGroupOf E pc group).2])
      else if (newCommOf E pc group).1 ≠ K.MPI_SUCCESS then
        some (0, SetHandle (SetHandle (KeepHandleOff h this) this (some E.uninit)) this none,
          [.Comm_group pc,
           .Group_incl (superGroupOf E pc).2 group.GetNumberOfProcessIds group.ProcessIds,
           .Group_free (superGroupOf E pc).2,
           .Comm_create pc (subGroupOf E pc group).2, .Group_free (subGroupOf E pc group).2])
      else
        some (1, SetGroup (SetInitialized (SetHandle (SetHandle (KeepHandleOff h this) this
                (some E.uninit)) this (some (newCommOf E pc group).2)) this true) this (some group),
          [.Comm_group pc,
           .Group_incl (superGroupOf E pc).2 group.GetNumberOfProcessIds group.ProcessIds,
           .Group_free (superGroupOf E pc).2,
           .Comm_create pc (subGroupOf E pc group).2, .Group_free (subGroupOf E pc group).2]) := by
  have hne : mpiComm ≠ this := by
    rintro rfl
    simp [hI] at hP
  have hk : KeepHandleOff h this mpiComm = h mpiComm := by
    simp [KeepHandleOff, Heap.modify_other _ _ _ _ hne]
  have hs : SetHandle (KeepHandleOff h this) this (some E.uninit) mpiComm = h mpiComm := by
    simp [SetHandle, Heap.modify_other _ _ _ _ hne, hk]
  unfold Initialize
  simp only [hI, hP, hk, hs, hG, hC, not_le.mpr hpos, not_lt.mpr hle, gt_iff_lt,
    Bool.false_eq_true, if_false, Bool.not_true, selectRanks_eq, superGroupOf, subGroupOf,
    newCommOf]

/-- Whatever `Initialize` returns, it changes no other object than the target,
and the target is either unchanged, or was uninitialized and has lost
`KeepHandle`, or `KeepHandle` and the handle, or is the initialized
communicator of a subgroup that is not empty. -/
theorem Initialize_cases (K : Consts) (E : Env) (h : Heap) (this mpiComm : Ptr)
    (group : vtkMPIGroup) (r : Int) (h1 : Heap) (calls : List Call)
    (hres : Initialize K E h this mpiComm group = some (r, h1, calls)) :
    (∀ q, q ≠ this → h1 q = h q) ∧
      (h1 this = h this ∨
        ((h this).Initialized = false ∧
          (h1 this = { h this with KeepHandle := false } ∨
           h1 this = { h this with KeepHandle := false, Handle := none } ∨
           ∃ c, 0 < group.GetNumberOfProcessIds ∧
             h1 this = { Handle := some c, Group := some group, Initialized := true,
                         KeepHandle := false }))) := by
  unfold Initialize at hres
  by_cases hI : (h this).Initialized = true
  · simp only [hI, if_true, Option.some.injEq, Prod.mk.injEq] at hres
    obtain ⟨-, rfl, -⟩ := hres
    exact ⟨fun _ _ => rfl, Or.inl rfl⟩
  by_cases hP : (h mpiComm).Initialized = true
  swap
  · simp only [hI, hP, Bool.false_eq_true, if_false, Bool.not_eq_true', Bool.not_false,
      if_true, Option.some.injEq, Prod.mk.injEq] at hres
    obtain ⟨-, rfl, -⟩ := hres
    exact ⟨fun _ _ => rfl, Or.inl rfl⟩
  have hIf : (h this).Initialized = false := by simpa using hI
  have hk : (∀ q, q ≠ this → KeepHandleOff h this q = h q) ∧
      (KeepHandleOff h this this = h this ∨
        ((h this).Initialized = false ∧
          (KeepHandleOff h this this = { h this with KeepHandle := false } ∨
           KeepHandleOff h this this = { h this with KeepHandle := false, Handle := none } ∨
           ∃ c, 0 < group.GetNumberOfProcessIds ∧
             KeepHandleOff h this this = { Handle := some c, Group := some group,
                                           Initialized := true, KeepHandle := false }))) :=
    ⟨fun q hq => by simp [KeepHandleOff, Heap.modify_other _ _ _ _ hq],
     Or.inr ⟨hIf, Or.inl (by simp [KeepHandleOff])⟩⟩
  by_cases h0 : group.GetNumberOfProcessIds ≤ 0
  · simp only [hI, hP, h0, Bool.false_eq_true, if_false, Bool.not_true, if_true,
      Option.some.injEq, Prod.mk.injEq] at hres
    obtain ⟨-, rfl, -⟩ := hres
    exact hk
  simp only [hI, hP, h0, Bool.false_eq_true, if_false, Bool.not_true] at hres
  cases hG : (KeepHandleOff h this mpiComm).Group with
  | none =>
    simp only [hG, Option.some.injEq, Prod.mk.injEq] at hres
    obtain ⟨-, rfl, -⟩ := hres
    exact hk
  | some pg =>
    simp only [hG] at hres
    by_cases hgt : group.GetNumberOfProcessIds > pg.GetNumberOfProcessIds
    · simp only [hgt, if_true, Option.some.injEq, Prod.mk.injEq] at hres
      obtain ⟨-, rfl, -⟩ := hres
      exact hk
    simp only [hgt, if_false] at hres
    cases hC : (KeepHandleOff h this mpiComm).Handle with
    | none => simp [hC] at hres
    | some pc =>
      simp only [hC] at hres
      split_ifs at hres with e1 e2
      · simp only [Option.some.injEq, Prod.mk.injEq] at hres
        obtain ⟨-, rfl, -⟩ := hres
        exact hk
      · simp only [Option.some.injEq, Prod.mk.injEq] at hres
        obtain ⟨-, rfl, -⟩ := hres
        exact hk
      · cases hC2 : (SetHandle (KeepHandleOff h this) this (some E.uninit) mpiComm).Handle with
        | none => simp [hC2] at hres
        | some pc2 =>
          simp only [hC2] at hres
          split_ifs at hres with e3
          · simp only [Option.some.injEq, Prod.mk.injEq] at hres
            obtain ⟨-, rfl, -⟩ := hres
            refine ⟨fun q hq => ?_, Or.inr ⟨hIf, Or.inr (Or.inl ?_)⟩⟩
            · simp [SetHandle, KeepHandleOff, Heap.modify_other _ _ _ _ hq]
            · simp [SetHandle, KeepHandleOff]
          · simp only [Option.some.injEq, Prod.mk.injEq] at hres
            obtain ⟨-, rfl, -⟩ := hres
            refine ⟨fun q hq => ?_, Or.inr ⟨hIf, Or.inr (Or.inr
              ⟨(E.Comm_create pc2 (E.Group_incl (E.Comm_group pc).2 group.GetNumberOfProcessIds
                (selectRanks group group.GetNumberOfProcessIds)).2).2, not_le.mp h0, ?_⟩)⟩⟩
            · simp [SetGroup, SetInitialized, SetHandle, KeepHandleOff,
                Heap.modify_other _ _ _ _ hq]
            · simp [SetGroup, SetInitialized, SetHandle, KeepHandleOff]

/-- The state `InitializeCopy` leaves when the source is another object that
has a group. -/
theorem InitializeCopy_other (h : Heap) (this src : Ptr) (sg : vtkMPIGroup)
    (hne : src ≠ this) (hG : (h src).Group = some sg) :
    ∃ h' calls, InitializeCopy h this (some src) = some (h', calls) ∧
      h' this = { Handle := none, Group := some ⟨sg.ProcessIds⟩,
                  Initialized := (h src).Initialized, KeepHandle := (h this).KeepHandle } ∧
      (∀ q, q ≠ this → h' q = h q) ∧
      (∀ c ∈ calls, ∃ x, c = Call.Comm_free x) := by
  have e1 : SetGroup (SetGroup h this none) this (some vtkMPIGroup.New) src = h src := by
    simp [SetGroup, Heap.modify_other _ _ _ _ hne]
  have e2 : ∀ g, SetHandle (SetGroup (SetGroup (SetGroup h this none) this
      (some vtkMPIGroup.New)) this g) this none src = h src := by
    intro g
    simp [SetGroup, SetHandle, Heap.modify_other _ _ _ _ hne]
  unfold InitializeCopy
  simp only [e1, hG, e2]
  refine ⟨_, _, rfl, ?_, ?_, ?_⟩
  · simp [SetGroup, SetHandle, SetInitialized, vtkMPIGroup.CopyFrom]
  · intro q hq
    simp [SetGroup, SetHandle, SetInitialized, Heap.modify_other _ _ _ _ hq]
  · intro c hc
    split at hc
    · simp at hc
    · split at hc
      · simp at hc
        exact ⟨_, hc⟩
      · simp at hc

/-- Without a group in the source, `InitializeCopy` reads through a null pointer. -/
theorem InitializeCopy_no_group (h : Heap) (this src : Ptr)
    (hne : src ≠ this) (hG : (h src).Group = none) :
    InitializeCopy h this (some src) = none := by
  have e1 : SetGroup (SetGroup h this none) this (some vtkMPIGroup.New) src = h src := by
    simp [SetGroup, Heap.modify_other _ _ _ _ hne]
  unfold InitializeCopy
  simp only [e1, hG]

/-- The state `InitializeCopy` leaves when the source is the target itself. -/
theorem InitializeCopy_self (h : Heap) (this : Ptr) :
    ∃ h' calls, InitializeCopy h this (some this) = some (h', calls) ∧
      h' this = { Handle := none, Group := some ⟨[]⟩,
                  Initialized := (h this).Initialized, KeepHandle := (h this).KeepHandle } ∧
      (∀ q, q ≠ this → h' q = h q) := by
  unfold InitializeCopy
  simp only [SetGroup, Heap.modify_same]
  refine ⟨_, _, rfl, ?_, ?_⟩
  · simp [SetHandle, SetInitialized, vtkMPIGroup.CopyFrom, vtkMPIGroup.New]
  · intro q hq
    simp [SetHandle, SetInitialized, Heap.modify_other _ _ _ _ hq]

/-- The state `CopyFrom` leaves when the source is another object that has a
group. -/
theorem CopyFrom_other (E : Env) (h : Heap) (this src : Ptr) (sg : vtkMPIGroup)
    (hne : src ≠ this) (hG : (h src).Group = some sg) :
    ∃ h' calls, CopyFrom E h this (some src) = some (h', calls) ∧
      h' this = { Handle := (h src).Handle, Group := some ⟨sg.ProcessIds⟩,
                  Initialized := (h src).Initialized,
                  KeepHandle := ((h src).Handle.isSome || (h this).KeepHandle) } ∧
      (∀ q, q ≠ this → h' q = h q) ∧
      (∀ c ∈ calls, ∃ x, c = Call.Comm_free x) := by
  obtain ⟨h1, calls, hic, hthis, hother, hcalls⟩ := InitializeCopy_other h this src sg hne hG
  unfold CopyFrom
  simp only [hic]
  cases hC : (h src).Handle with
  | none =>
    have hs1 : (h1 src).Handle = none := by rw [hother src hne, hC]
    simp only [hs1]
    exact ⟨_, _, rfl, by simp [hthis], hother, hcalls⟩
  | some comm =>
    have hs1 : (h1 src).Handle = some comm := by rw [hother src hne, hC]
    have hs2 : (SetHandle (KeepHandleOn h1 this) this (some E.uninit) src).Handle
        = some comm := by
      simp [SetHandle, KeepHandleOn, Heap.modify_other _ _ _ _ hne, hs1]
    simp only [hs1, hs2]
    refine ⟨_, _, rfl, ?_, ?_, hcalls⟩
    · simp [SetHandle, KeepHandleOn, hthis]
    · intro q hq
      simp [SetHandle, KeepHandleOn, Heap.modify_other _ _ _ _ hq, hother q hq]

/-- The state `CopyFrom` leaves when the source is the target itself. -/
theorem CopyFrom_self (E : Env) (h : Heap) (this : Ptr) :
    ∃ h' calls, CopyFrom E h this (some this) = some (h', calls) ∧
      h' this = { Handle := none, Group := some ⟨[]⟩,
                  Initialized := (h this).Initialized, KeepHandle := (h this).KeepHandle } ∧
      (∀ q, q ≠ this → h' q = h q) := by
  obtain ⟨h1, calls, hic, hthis, hother⟩ := InitializeCopy_self h this
  have hH : (h1 this).Handle = none := by rw [hthis]
  unfold CopyFrom
  simp only [hic, hH]
  exact ⟨_, _, rfl, hthis, hother⟩

/-- The state `Duplicate` leaves when the source is another object that has a
group: the handle, when the source has one, holds what `MPI_Comm_dup` left,
whatever its status. -/
theorem Duplicate_other (K : Consts) (E : Env) (h : Heap) (this src : Ptr) (sg : vtkMPIGroup)
    (hne : src ≠ this) (hG : (h src).Group = some sg) :
    ∃ h' calls, Duplicate K E h this (some src) = some (h', calls) ∧
      h' this = { Handle := (h src).Handle.map (fun comm => (E.Comm_dup comm).2),
                  Group := some ⟨sg.ProcessIds⟩,
                  Initialized := (h src).Initialized, KeepHandle := false } ∧
      (∀ q, q ≠ this → h' q = h q) := by
  obtain ⟨h1, calls, hic, hthis, hother, -⟩ := InitializeCopy_other h this src sg hne hG
  unfold Duplicate
  simp only [hic]
  cases hC : (h src).Handle with
  | none =>
    have hs1 : (KeepHandleOff h1 this src).Handle = none := by
      simp [KeepHandleOff, Heap.modify_other _ _ _ _ hne, hother src hne, hC]
    simp only [hs1]
    refine ⟨_, _, rfl, ?_, ?_⟩
    · simp [KeepHandleOff, hthis]
    · intro q hq
      simp [KeepHandleOff, Heap.modify_other _ _ _ _ hq, hother q hq]
  | some comm =>
    have hs1 : (KeepHandleOff h1 this src).Handle = some comm := by
      simp [KeepHandleOff, Heap.modify_other _ _ _ _ hne, hother src hne, hC]
    have hs2 : (SetHandle (KeepHandleOff h1 this) this (some E.uninit) src).Handle
        = some comm := by
      simp [SetHandle, KeepHandleOff, Heap.modify_other _ _ _ _ hne, hother src hne, hC]
    simp only [hs1, hs2, ite_self]
    refine ⟨_, _, rfl, ?_, ?_⟩
    · simp [SetHandle, KeepHandleOff, hthis]
    · intro q hq
      simp [SetHandle, KeepHandleOff, Heap.modify_other _ _ _ _ hq, hother q hq]

/-- The state `Duplicate` leaves when the source is the target itself. -/
theorem Duplicate_self (K : Consts) (E : Env) (h : Heap) (this : Ptr) :
    ∃ h' calls, Duplicate K E h this (some this) = some (h', calls) ∧
      h' this = { Handle := none, Group := some ⟨[]⟩,
                  Initialized := (h this).Initialized, KeepHandle := false } ∧
      (∀ q, q ≠ this → h' q = h q) := by
  obtain ⟨h1, calls, hic, hthis, hother⟩ := InitializeCopy_self h this
  have hH : (KeepHandleOff h1 this this).Handle = none := by simp [KeepHandleOff, hthis]
  unfold Duplicate
  simp only [hic, hH]
  refine ⟨_, _, rfl, ?_, ?_⟩
  · simp [KeepHandleOff, hthis]
  · intro q hq
    simp [KeepHandleOff, Heap.modify_other _ _ _ _ hq, hother q hq]

/-- The loop of `GetWorldCommunicator` fills an empty group with `0 .. size-1`. -/
theorem addProcessIds_empty (size : Int) :
    addProcessIds ⟨[]⟩ size = ⟨(List.range size.toNat).map Int.ofNat⟩ := by
  unfold addProcessIds
  induction size.toNat with
  | zero => rfl
  | succ n ih =>
    rw [List.range_succ, List.foldl_append, ih]
    simp [vtkMPIGroup.AddProcessId]

/-! ## Facts of every reachable state -/

/-- Every call keeps `Sound` on every object of the process. -/
theorem exec_keeps_Sound (K : Consts) (P P' : Process) (op : Op)
    (hinv : ∀ p, p < P.next → Sound (P.heap p))
    (hex : exec K P op = some P') :
    ∀ p, p < P'.next → Sound (P'.heap p) := by
  cases op with
  | New =>
    simp only [exec, Option.some.injEq] at hex
    subst hex
    intro p hp
    by_cases hpn : p = P.next
    · subst hpn
      simp [Sound, vtkMPICommunicator.New]
    · simp only [Function.update_noteq hpn]
      exact hinv p (Nat.lt_of_le_of_ne (Nat.lt_succ_iff.mp hp) hpn)
  | GetWorldCommunicator E =>
    simp only [exec, Option.some.injEq] at hex
    subst hex
    unfold GetWorldCommunicator
    cases hW : P.WorldCommunicator with
    | some w => simpa using hinv
    | none =>
      simp only []
      by_cases hok : (E.Comm_size K.MPI_COMM_WORLD).1 = K.MPI_SUCCESS
      · simp only [hok, ne_eq, not_true_eq_false, if_false]
        intro p hp
        by_cases hpn : p = P.next
        · subst hpn
          simp [Sound, KeepHandleOn, SetInitialized, SetGroup, SetHandle]
        · simp only [KeepHandleOn, SetInitialized, SetGroup, SetHandle,
            Heap.modify_other _ _ _ _ hpn, Function.update_noteq hpn]
          exact hinv p (Nat.lt_of_le_of_ne (Nat.lt_succ_iff.mp hp) hpn)
      · simp only [hok, ne_eq, not_false_eq_true, if_true]
        intro p hp
        have hpn : p ≠ P.next := Nat.ne_of_lt hp
        simp only [SetGroup, SetHandle, Heap.modify_other _ _ _ _ hpn,
          Function.update_noteq hpn]
        exact hinv p hp
  | Initialize E this mpiComm group =>
    simp only [exec] at hex
    split_ifs at hex with hlive
    cases hres : Initialize K E P.heap this mpiComm group with
    | none => simp [hres] at hex
    | some r =>
      obtain ⟨ret, h1, calls⟩ := r
      simp only [hres, Option.some.injEq] at hex
      subst hex
      obtain ⟨hother, hthis⟩ := Initialize_cases K E P.heap this mpiComm group ret h1 calls hres
      intro p hp
      by_cases hpt : p = this
      · subst hpt
        have hs := hinv p hp
        rcases hthis with e | ⟨hIf, e | e | ⟨c, hpos, e⟩⟩
        · simp only [e]; exact hs
        · simp only [e, Sound]
          exact ⟨hs.1, hs.2.1, fun hI => by simp [hIf] at hI⟩
        · simp only [e, Sound]
          exact ⟨by simp, by simp, fun hI => by simp [hIf] at hI⟩
        · simp only [e, Sound]
          exact ⟨fun hI => by simp at hI, fun _ => by simp, fun _ _ => by simp⟩
      · simp only [hother p hpt]
        exact hinv p hp
  | CopyFrom E this source =>
    simp only [exec] at hex
    split_ifs at hex with hlive
    by_cases hne : source = this
    · subst hne
      obtain ⟨h1, calls, hcf, hthis, hother⟩ := CopyFrom_self E P.heap source
      simp only [hcf, Option.some.injEq] at hex
      subst hex
      intro p hp
      by_cases hpt : p = source
      · subst hpt
        simp only [hthis, Sound]
        refine ⟨by simp, by simp, fun _ hg => ?_⟩
        obtain ⟨g, hg, hpos⟩ := hg
        rw [Option.some.injEq] at hg
        subst hg
        exact absurd hpos (by decide)
      · simp only [hother p hpt]
        exact hinv p hp
    · cases hG : (P.heap source).Group with
      | none =>
        simp [CopyFrom, InitializeCopy_no_group P.heap this source hne hG] at hex
      | some sg =>
        obtain ⟨h1, calls, hcf, hthis, hother, -⟩ :=
          CopyFrom_other E P.heap this source sg hne hG
        simp only [hcf, Option.some.injEq] at hex
        subst hex
        intro p hp
        by_cases hpt : p = this
        · subst hpt
          obtain ⟨s1, -, s3⟩ := hinv source hlive.2
          simp only [hthis, Sound]
          refine ⟨s1, fun _ => by simp, fun hI hg => s3 hI ?_⟩
          obtain ⟨g, hg, hpos⟩ := hg
          rw [Option.some.injEq] at hg
          subst hg
          exact ⟨sg, hG, hpos⟩
        · simp only [hother p hpt]
          exact hinv p hp
  | Duplicate E this source =>
    simp only [exec] at hex
    split_ifs at hex with hlive
    by_cases hne : source = this
    · subst hne
      obtain ⟨h1, calls, hcf, hthis, hother⟩ := Duplicate_self K E P.heap source
      simp only [hcf, Option.some.injEq] at hex
      subst hex
      intro p hp
      by_cases hpt : p = source
      · subst hpt
        simp only [hthis, Sound]
        refine ⟨by simp, by simp, fun _ hg => ?_⟩
        obtain ⟨g, hg, hpos⟩ := hg
        rw [Option.some.injEq] at hg
        subst hg
        exact absurd hpos (by decide)
      · simp only [hother p hpt]
        exact hinv p hp
    · cases hG : (P.heap source).Group with
      | none =>
        simp [Duplicate, InitializeCopy_no_group P.heap this source hne hG] at hex
      | some sg =>
        obtain ⟨h1, calls, hcf, hthis, hother⟩ :=
          Duplicate_other K E P.heap this source sg hne hG
        simp only [hcf, Option.some.injEq] at hex
        subst hex
        intro p hp
        by_cases hpt : p = this
        · subst hpt
          obtain ⟨s1, -, s3⟩ := hinv source hlive.2
          simp only [hthis, Sound]
          refine ⟨fun hI => by simp [s1 hI], fun _ => by simp, fun hI hg => ?_⟩
          obtain ⟨g, hg, hpos⟩ := hg
          rw [Option.some.injEq] at hg
          subst hg
          have := s3 hI ⟨sg, hG, hpos⟩
          cases hC : (P.heap source).Handle with
          | none => exact absurd hC this
          | some c => simp
        · simp only [hother p hpt]
          exact hinv p hp

/-- Every communicator of every reachable process, whatever the calls and their
arguments, satisfies `Sound`. -/
theorem reachable_Sound (K : Consts) (ops : List Op) :
    ∀ (P P' : Process), (∀ p, p < P.next → Sound (P.heap p)) →
      run K P ops = some P' → ∀ p, p < P'.next → Sound (P'.heap p) := by
  induction ops with
  | nil =>
    intro P P' hinv hrun
    simp only [run, Option.some.injEq] at hrun
    subst hrun
    exact hinv
  | cons op ops ih =>
    intro P P' hinv hrun
    simp only [run] at hrun
    cases hex : exec K P op with
    | none => simp [hex] at hrun
    | some P1 =>
      simp only [hex] at hrun
      exact ih P1 P' (exec_keeps_Sound K P P1 op hinv hex) hrun

/-- Every communicator of a process built from nothing, whatever the calls and
their arguments: an uninitialized one has no handle, one with a handle has a
group, an initialized one with a group that is not empty has a handle. -/
theorem start_Sound (K : Consts) (ops : List Op) (P : Process)
    (hrun : run K Process.start ops = some P) (p : Ptr) (hp : p < P.next) :
    Sound (P.heap p) :=
  reachable_Sound K ops Process.start P (fun q hq => absurd hq (Nat.not_lt_zero q)) hrun p hp

/-! ## Deriving a sub-communicator -/

/-- C1: a subgroup with no process id, or with more ids than the group of the
parent holds, makes `Initialize` return 0 with no transport call; a target
that was uninitialized with a null handle is still so afterwards. -/
theorem Initialize_invalid_subgroup (K : Consts) (E : Env) (h : Heap) (this mpiComm : Ptr)
    (group : vtkMPIGroup)
    (hI : (h this).Initialized = false) (hH : (h this).Handle = none)
    (hbad : group.GetNumberOfProcessIds ≤ 0 ∨
      ∀ pg, (h mpiComm).Group = some pg →
        group.GetNumberOfProcessIds > pg.GetNumberOfProcessIds) :
    ∃ h', Initialize K E h this mpiComm group = some (0, h', []) ∧
      (h' this).Initialized = false ∧ (h' this).Handle = none := by
  unfold Initialize
  simp only [hI, Bool.false_eq_true, if_false]
  by_cases hp : (h mpiComm).Initialized = true
  · have hne : mpiComm ≠ this := by
      rintro rfl
      simp [hI] at hp
    have hg : (KeepHandleOff h this mpiComm) = h mpiComm := by
      simp [KeepHandleOff, Heap.modify_other _ _ _ _ hne]
    simp only [hp, Bool.not_true, Bool.false_eq_true, if_false, hg]
    refine ⟨KeepHandleOff h this, ?_, by simp [KeepHandleOff, hI], by simp [KeepHandleOff, hH]⟩
    by_cases h0 : group.GetNumberOfProcessIds ≤ 0
    · simp [h0]
    · have hgt := hbad.resolve_left h0
      cases hG : (h mpiComm).Group with
      | none => simp [h0]
      | some pg => simp [h0, hgt pg hG]
  · exact ⟨h, by simp [hp], hI, hH⟩

/-- C1 on a concrete heap: an empty subgroup offered to a fresh communicator, the
world communicator of four processes as parent. -/
theorem Initialize_invalid_subgroup_witness :
    ∃ h', Initialize mpich envOk heap0 1 0 ⟨[]⟩ = some (0, h', []) ∧
      (h' 1).Initialized = false ∧ (h' 1).Handle = none :=
  Initialize_invalid_subgroup mpich envOk heap0 1 0 ⟨[]⟩ rfl rfl (Or.inl (by decide))

/-- C2: once `Initialize` has succeeded on a communicator, any further
`Initialize` on it returns 0, issues no transport call and leaves every
object, the target included, as the successful call left it. -/
theorem Initialize_twice (K : Consts) (E : Env) (h : Heap) (this mpiComm : Ptr)
    (group : vtkMPIGroup) (h1 : Heap) (calls : List Call)
    (hfirst : Initialize K E h this mpiComm group = some (1, h1, calls))
    (E2 : Env) (mpiComm2 : Ptr) (group2 : vtkMPIGroup) :
    Initialize K E2 h1 this mpiComm2 group2 = some (0, h1, []) := by
  have hI := Initialize_one_initialized K E h this mpiComm group h1 calls hfirst
  simp [Initialize, hI]

/-- C2 on a concrete heap: after a successful derivation from the world
communicator, a second `Initialize`, in an environment where the transport
would fail, returns 0 and changes nothing. -/
theorem Initialize_twice_witness :
    Initialize mpich envCommFails
        ((Initialize mpich envOk heap0 1 0 ⟨[2, 0]⟩).get (by rfl)).2.1 1 0 ⟨[1]⟩ =
      some (0, ((Initialize mpich envOk heap0 1 0 ⟨[2, 0]⟩).get (by rfl)).2.1, []) :=
  Initialize_twice mpich envOk heap0 1 0 ⟨[2, 0]⟩ _ _ (by rfl) envCommFails 0 ⟨[1]⟩

/-- C3: on an uninitialized target, with an initialized parent holding a
context and a subgroup of between 1 and the parent's number of ids, when the
three transport steps succeed `Initialize` returns 1; the ranks handed to
`MPI_Group_incl` are the id sequence of the subgroup, in order, element `i`
being `GetProcessId(i)`; the context is created from the parent's context;
the target then holds that new context in a non-null handle, with
`KeepHandle` off, the subgroup as its group and `Initialized` on; no other
object changes. -/
theorem Initialize_success (K : Consts) (E : Env) (h : Heap) (this mpiComm : Ptr)
    (group pg : vtkMPIGroup) (pc : MPI_Comm)
    (hI : (h this).Initialized = false) (hP : (h mpiComm).Initialized = true)
    (hG : (h mpiComm).Group = some pg) (hC : (h mpiComm).Handle = some pc)
    (hpos : 0 < group.GetNumberOfProcessIds)
    (hle : group.GetNumberOfProcessIds ≤ pg.GetNumberOfProcessIds)
    (h1 : (superGroupOf E pc).1 = K.MPI_SUCCESS)
    (h2 : (subGroupOf E pc group).1 = K.MPI_SUCCESS)
    (h3 : (newCommOf E pc group).1 = K.MPI_SUCCESS) :
    ∃ h', Initialize K E h this mpiComm group =
        some (1, h',
          [.Comm_group pc,
           .Group_incl (superGroupOf E pc).2 group.GetNumberOfProcessIds group.ProcessIds,
           .Group_free (superGroupOf E pc).2,
           .Comm_create pc (subGroupOf E pc group).2,
           .Group_free (subGroupOf E pc group).2]) ∧
      (group.ProcessIds.length : Int) = group.GetNumberOfProcessIds ∧
      (∀ i : Nat, i < group.ProcessIds.length →
        group.ProcessIds[i]? = some (group.GetProcessId i)) ∧
      h' this = { Handle := some (newCommOf E pc group).2, Group := some group,
                  Initialized := true, KeepHandle := false } ∧
      ∀ q, q ≠ this → h' q = h q := by
  rw [Initialize_steps K E h this mpiComm group pg pc hI hP hG hC hpos hle]
  simp only [h1, h2, h3, ne_eq, not_true_eq_false, if_false]
  refine ⟨_, rfl, rfl, ?_, ?_, ?_⟩
  · intro i hi
    simp [vtkMPIGroup.GetProcessId, List.getElem?_eq_getElem hi]
  · simp [SetGroup, SetInitialized, SetHandle, KeepHandleOff]
  · intro q hq
    simp [SetGroup, SetInitialized, SetHandle, KeepHandleOff, Heap.modify_other _ _ _ _ hq]

/-- C3 on a concrete heap: the subgroup of world ranks 2 and 0, in that order. -/
theorem Initialize_success_witness :
    ∃ h', Initialize mpich envOk heap0 1 0 ⟨[2, 0]⟩ =
        some (1, h',
          [.Comm_group 1140850688, .Group_incl 1140850689 2 [2, 0], .Group_free 1140850689,
           .Comm_create 1140850688 1140850690, .Group_free 1140850690]) ∧
      h' 1 = { Handle := some 2281701378, Group := some ⟨[2, 0]⟩,
               Initialized := true, KeepHandle := false } :=
  (Initialize_success mpich envOk heap0 1 0 ⟨[2, 0]⟩ ⟨[0, 1, 2, 3]⟩ 1140850688
    rfl rfl rfl rfl (by decide) (by decide) rfl rfl rfl).imp
    (fun _ hh => ⟨hh.1, hh.2.2.2.1⟩)

/-- C4: on an uninitialized target without a handle that passes the
precondition checks, when one of the three transport steps does not return
success, `Initialize` returns 0, the target is still uninitialized with a null
handle and its former group, and each transport group obtained by a step that
succeeded has been passed to `MPI_Group_free`. -/
theorem Initialize_transport_failure (K : Consts) (E : Env) (h : Heap) (this mpiComm : Ptr)
    (group pg : vtkMPIGroup) (pc : MPI_Comm)
    (hI : (h this).Initialized = false) (hH : (h this).Handle = none)
    (hP : (h mpiComm).Initialized = true)
    (hG : (h mpiComm).Group = some pg) (hC : (h mpiComm).Handle = some pc)
    (hpos : 0 < group.GetNumberOfProcessIds)
    (hle : group.GetNumberOfProcessIds ≤ pg.GetNumberOfProcessIds)
    (hfail : ¬ ((superGroupOf E pc).1 = K.MPI_SUCCESS ∧
               (subGroupOf E pc group).1 = K.MPI_SUCCESS ∧
               (newCommOf E pc group).1 = K.MPI_SUCCESS)) :
    ∃ h' calls, Initialize K E h this mpiComm group = some (0, h', calls) ∧
      (h' this).Initialized = false ∧ (h' this).Handle = none ∧
      (h' this).Group = (h this).Group ∧
      ((superGroupOf E pc).1 = K.MPI_SUCCESS →
        Call.Group_free (superGroupOf E pc).2 ∈ calls) ∧
      ((superGroupOf E pc).1 = K.MPI_SUCCESS → (subGroupOf E pc group).1 = K.MPI_SUCCESS →
        Call.Group_free (subGroupOf E pc group).2 ∈ calls) := by
  rw [Initialize_steps K E h this mpiComm group pg pc hI hP hG hC hpos hle]
  by_cases h1 : (superGroupOf E pc).1 = K.MPI_SUCCESS
  · by_cases h2 : (subGroupOf E pc group).1 = K.MPI_SUCCESS
    · have h3 : (newCommOf E pc group).1 ≠ K.MPI_SUCCESS := fun h3 => hfail ⟨h1, h2, h3⟩
      simp only [h1, h2, h3, ne_eq, not_true_eq_false, not_false_eq_true, if_false, if_true]
      refine ⟨_, _, rfl, ?_, ?_, ?_, ?_, ?_⟩ <;> simp [SetHandle, KeepHandleOff, hI]
    · simp only [h1, h2, ne_eq, not_true_eq_false, not_false_eq_true, if_false, if_true]
      refine ⟨_, _, rfl, ?_, ?_, ?_, ?_, ?_⟩ <;> simp [KeepHandleOff, hI, hH, h2]
  · simp only [h1, ne_eq, not_false_eq_true, if_true]
    refine ⟨_, _, rfl, ?_, ?_, ?_, ?_, ?_⟩ <;> simp [KeepHandleOff, hI, hH, h1]

/-- C4 on a concrete heap: context creation fails after both group steps
succeeded, and both transport groups are released. -/
theorem Initialize_transport_failure_witness :
    ∃ h' calls, Initialize mpich envCommFails heap0 1 0 ⟨[2, 0]⟩ = some (0, h', calls) ∧
      (h' 1).Initialized = false ∧ (h' 1).Handle = none ∧ (h' 1).Group = none ∧
      Call.Group_free 1140850689 ∈ calls ∧ Call.Group_free 1140850690 ∈ calls :=
  (Initialize_transport_failure mpich envCommFails heap0 1 0 ⟨[2, 0]⟩ ⟨[0, 1, 2, 3]⟩ 1140850688
    rfl rfl rfl rfl rfl (by decide) (by decide) (by decide)).imp
    (fun _ hh => hh.imp
      (fun _ hc => ⟨hc.1, hc.2.1, hc.2.2.1, hc.2.2.2.1, hc.2.2.2.2.1 rfl, hc.2.2.2.2.2 rfl rfl⟩))

/-! ## Copy and duplicate -/

/-- C5: `CopyFrom` from another communicator that has a context (and a group
to copy) leaves the source, and every object other than the target, exactly as
it was, and gives the target the same context value through calls that only
ever release a context, never create or duplicate one.  After the call the
target and the source hold the same context value, the target's group has
the id sequence of the source's group, the two `Initialized` flags are equal,
the target has `KeepHandle` on, and destroying the target issues no transport
call. -/
theorem CopyFrom_shares_context (K : Consts) (E : Env) (h : Heap) (this src : Ptr)
    (comm : MPI_Comm) (sg : vtkMPIGroup)
    (hne : src ≠ this) (hC : (h src).Handle = some comm) (hG : (h src).Group = some sg) :
    ∃ h' calls, CopyFrom E h this (some src) = some (h', calls) ∧
      (h' this).Handle = some comm ∧ (h' src).Handle = some comm ∧
      (∀ c ∈ calls, ∃ x, c = Call.Comm_free x) ∧
      (h' this).KeepHandle = true ∧
      (h' this).Group = some ⟨sg.ProcessIds⟩ ∧
      (h' this).Initialized = (h src).Initialized ∧
      Destructor K (h' this) = [] ∧
      h' src = h src ∧
      (h' src).Group = some sg ∧
      (h' this).Handle = (h' src).Handle ∧
      (h' this).Initialized = (h' src).Initialized ∧
      ∀ q, q ≠ this → h' q = h q := by
  obtain ⟨h', calls, hcf, hthis, hother, hcalls⟩ := CopyFrom_other E h this src sg hne hG
  have hsrc : h' src = h src := hother src hne
  refine ⟨h', calls, hcf, ?_, ?_, hcalls, ?_, ?_, ?_, ?_, hsrc, ?_, ?_, ?_, hother⟩
  · simp [hthis, hC]
  · rw [hsrc, hC]
  · simp [hthis, hC]
  · simp [hthis]
  · simp [hthis]
  · simp [hthis, hC, Destructor]
  · rw [hsrc, hG]
  · rw [hsrc]; simp [hthis]
  · rw [hsrc]; simp [hthis]

/-- C5 on a concrete heap: a fresh communicator copies the world communicator,
which is left as it was. -/
theorem CopyFrom_shares_context_witness :
    ∃ h' calls, CopyFrom envOk heap0 1 (some 0) = some (h', calls) ∧
      (h' 1).Handle = some 1140850688 ∧ (h' 0).Handle = some 1140850688 ∧
      (∀ c ∈ calls, ∃ x, c = Call.Comm_free x) ∧
      (h' 1).KeepHandle = true ∧
      (h' 1).Group = some ⟨[0, 1, 2, 3]⟩ ∧
      (h' 1).Initialized = true ∧
      Destructor mpich (h' 1) = [] ∧
      h' 0 = world4 ∧
      (h' 0).Group = some ⟨[0, 1, 2, 3]⟩ ∧
      (h' 1).Handle = (h' 0).Handle ∧
      (h' 1).Initialized = (h' 0).Initialized ∧
      ∀ q, q ≠ 1 → h' q = heap0 q :=
  CopyFrom_shares_context mpich envOk heap0 1 0 1140850688 ⟨[0, 1, 2, 3]⟩ (by decide) rfl rfl

/-- C6 (what the code does): when `MPI_Comm_dup` does not return success,
`Duplicate` leaves the target with a non-null handle holding whatever the failed
call left in the new `MPI_Comm`, `KeepHandle` off; the destructor then passes
that value to `MPI_Comm_free` unless it is `MPI_COMM_NULL`. -/
theorem Duplicate_failure_keeps_handle (K : Consts) (E : Env) (h : Heap) (this src : Ptr)
    (comm : MPI_Comm) (sg : vtkMPIGroup)
    (hne : src ≠ this) (hC : (h src).Handle = some comm) (hG : (h src).Group = some sg)
    (hfail : (E.Comm_dup comm).1 ≠ K.MPI_SUCCESS) :
    ∃ h' calls, Duplicate K E h this (some src) = some (h', calls) ∧
      (h' this).Handle = some (E.Comm_dup comm).2 ∧
      (h' this).KeepHandle = false ∧
      Destructor K (h' this) =
        if (E.Comm_dup comm).2 ≠ K.MPI_COMM_NULL then [.Comm_free (E.Comm_dup comm).2] else [] := by
  obtain ⟨h', calls, hd, hthis, -⟩ := Duplicate_other K E h this src sg hne hG
  have _ := hfail
  refine ⟨h', calls, hd, ?_, ?_, ?_⟩
  · simp [hthis, hC]
  · simp [hthis]
  · simp [hthis, hC, Destructor]

/-- C6 on a concrete heap: a fresh communicator duplicates the world communicator
and `MPI_Comm_dup` fails with status 16, leaving 7 in the new `MPI_Comm`. -/
theorem Duplicate_failure_keeps_handle_witness :
    ∃ h' calls, Duplicate mpich envCommFails heap0 1 (some 0) = some (h', calls) ∧
      (h' 1).Handle = some 7 ∧ (h' 1).KeepHandle = false ∧
      Destructor mpich (h' 1) = [.Comm_free 7] :=
  Duplicate_failure_keeps_handle mpich envCommFails heap0 1 0 1140850688 ⟨[0, 1, 2, 3]⟩
    (by decide) rfl rfl (by decide)

/-! ## The invariant of initialized communicators -/

/-- A target satisfying the invariant still satisfies it after `Initialize`. -/
theorem Initialize_keeps_WellFormed (K : Consts) (E : Env) (h : Heap) (this mpiComm : Ptr)
    (group : vtkMPIGroup) (r : Int) (h1 : Heap) (calls : List Call)
    (hres : Initialize K E h this mpiComm group = some (r, h1, calls)) :
    (∀ q, q ≠ this → h1 q = h q) ∧ (WellFormed (h this) → WellFormed (h1 this)) := by
  obtain ⟨hother, hthis⟩ := Initialize_cases K E h this mpiComm group r h1 calls hres
  refine ⟨hother, fun hw => ?_⟩
  rcases hthis with e | ⟨hIf, e | e | ⟨c, hpos, e⟩⟩
  · rw [e]; exact hw
  · rw [e]; simp [WellFormed, hIf]
  · rw [e]; simp [WellFormed, hIf]
  · rw [e]; exact fun _ => ⟨by simp, group, rfl, hpos⟩

/-- A call that is admissible keeps the invariant on every object of the
process. -/
theorem exec_keeps_WellFormed (K : Consts) (P P' : Process) (op : Op)
    (hadm : op.Admissible K)
    (hinv : ∀ p, p < P.next → WellFormed (P.heap p))
    (hex : exec K P op = some P') :
    ∀ p, p < P'.next → WellFormed (P'.heap p) := by
  cases op with
  | New =>
    simp only [exec, Option.some.injEq] at hex
    subst hex
    intro p hp
    by_cases hpn : p = P.next
    · subst hpn
      simp [WellFormed, vtkMPICommunicator.New]
    · simp only [Function.update_noteq hpn]
      exact hinv p (Nat.lt_of_le_of_ne (Nat.lt_succ_iff.mp hp) hpn)
  | GetWorldCommunicator E =>
    simp only [exec, Option.some.injEq] at hex
    subst hex
    unfold GetWorldCommunicator
    cases hW : P.WorldCommunicator with
    | some w => simpa using hinv
    | none =>
      simp only []
      by_cases hok : (E.Comm_size K.MPI_COMM_WORLD).1 = K.MPI_SUCCESS
      · have hpos := hadm hok
        simp only [hok, ne_eq, not_true_eq_false, if_false]
        intro p hp
        by_cases hpn : p = P.next
        · subst hpn
          simp only [WellFormed, KeepHandleOn, SetInitialized, SetGroup, SetHandle,
            Heap.modify_same, vtkMPIGroup.Initialize, addProcessIds_empty]
          intro _
          refine ⟨by simp, _, rfl, ?_⟩
          simp only [vtkMPIGroup.GetNumberOfProcessIds, List.length_map, List.length_range]
          omega
        · simp only [KeepHandleOn, SetInitialized, SetGroup, SetHandle,
            Heap.modify_other _ _ _ _ hpn, Function.update_noteq hpn]
          exact hinv p (Nat.lt_of_le_of_ne (Nat.lt_succ_iff.mp hp) hpn)
      · simp only [hok, ne_eq, not_false_eq_true, if_true]
        intro p hp
        have hpn : p ≠ P.next := Nat.ne_of_lt hp
        simp only [SetGroup, SetHandle, Heap.modify_other _ _ _ _ hpn,
          Function.update_noteq hpn]
        exact hinv p hp
  | Initialize E this mpiComm group =>
    simp only [exec] at hex
    split_ifs at hex with hlive
    cases hres : Initialize K E P.heap this mpiComm group with
    | none => simp [hres] at hex
    | some r =>
      obtain ⟨ret, h1, calls⟩ := r
      simp only [hres, Option.some.injEq] at hex
      subst hex
      obtain ⟨hother, hthis⟩ :=
        Initialize_keeps_WellFormed K E P.heap this mpiComm group ret h1 calls hres
      intro p hp
      by_cases hpt : p = this
      · subst hpt
        exact hthis (hinv p hp)
      · simp only [hother p hpt]
        exact hinv p hp
  | CopyFrom E this source =>
    have hne : source ≠ this := hadm
    simp only [exec] at hex
    split_ifs at hex with hlive
    cases hG : (P.heap source).Group with
    | none =>
      simp [CopyFrom, InitializeCopy_no_group P.heap this source hne hG] at hex
    | some sg =>
      obtain ⟨h1, calls, hcf, hthis, hother, -⟩ := CopyFrom_other E P.heap this source sg hne hG
      simp only [hcf, Option.some.injEq] at hex
      subst hex
      intro p hp
      by_cases hpt : p = this
      · subst hpt
        have hsrc := hinv source hlive.2
        simp only [hthis, WellFormed] at hsrc ⊢
        intro hI
        obtain ⟨hH, g, hg, hpos⟩ := hsrc hI
        rw [hG, Option.some.injEq] at hg
        subst hg
        exact ⟨hH, _, rfl, hpos⟩
      · simp only [hother p hpt]
        exact hinv p hp
  | Duplicate E this source =>
    have hne : source ≠ this := hadm
    simp only [exec] at hex
    split_ifs at hex with hlive
    cases hG : (P.heap source).Group with
    | none =>
      simp [Duplicate, InitializeCopy_no_group P.heap this source hne hG] at hex
    | some sg =>
      obtain ⟨h1, calls, hcf, hthis, hother⟩ := Duplicate_other K E P.heap this source sg hne hG
      simp only [hcf, Option.some.injEq] at hex
      subst hex
      intro p hp
      by_cases hpt : p = this
      · subst hpt
        have hsrc := hinv source hlive.2
        simp only [hthis, WellFormed] at hsrc ⊢
        intro hI
        obtain ⟨hH, g, hg, hpos⟩ := hsrc hI
        rw [hG, Option.some.injEq] at hg
        subst hg
        refine ⟨?_, _, rfl, hpos⟩
        cases hC : (P.heap source).Handle with
        | none => exact absurd hC hH
        | some c => simp
      · simp only [hother p hpt]
        exact hinv p hp

/-- A sequence of admissible calls keeps the invariant on every object. -/
theorem run_keeps_WellFormed (K : Consts) (ops : List Op) :
    ∀ (P P' : Process), (∀ op ∈ ops, op.Admissible K) →
      (∀ p, p < P.next → WellFormed (P.heap p)) →
      run K P ops = some P' → ∀ p, p < P'.next → WellFormed (P'.heap p) := by
  induction ops with
  | nil =>
    intro P P' _ hinv hrun
    simp only [run, Option.some.injEq] at hrun
    subst hrun
    exact hinv
  | cons op ops ih =>
    intro P P' hadm hinv hrun
    simp only [run] at hrun
    cases hex : exec K P op with
    | none => simp [hex] at hrun
    | some P1 =>
      simp only [hex] at hrun
      exact ih P1 P' (fun o ho => hadm o (List.mem_cons_of_mem _ ho))
        (exec_keeps_WellFormed K P P1 op (hadm op (List.mem_cons_self _ _)) hinv hex) hrun

/-- The invariant away from self sources: in a process built from nothing by
object creation, the world singleton accessor, `Initialize`, `CopyFrom` and
`Duplicate`, in any order, with any objects as arguments and any transport
outcomes, provided the source of `CopyFrom` and `Duplicate` is never the
target itself and a process count reported with success is at least 1, every
initialized communicator has a non-null handle and a group with at least one
process id. -/
theorem reachable_WellFormed (K : Consts) (ops : List Op) (P : Process)
    (hadm : ∀ op ∈ ops, op.Admissible K)
    (hrun : run K Process.start ops = some P)
    (p : Ptr) (hp : p < P.next) (hI : (P.heap p).Initialized = true) :
    (P.heap p).Handle ≠ none ∧
      ∃ g, (P.heap p).Group = some g ∧ 0 < g.GetNumberOfProcessIds :=
  run_keeps_WellFormed K ops Process.start P hadm
    (fun q hq => absurd hq (Nat.not_lt_zero q)) hrun p hp hI

/-- The invariant on the calls of `demoOps`, for the copy at address 2. -/
theorem reachable_WellFormed_witness :
    (demoProcess.heap 2).Handle ≠ none ∧
      ∃ g, (demoProcess.heap 2).Group = some g ∧ 0 < g.GetNumberOfProcessIds :=
  reachable_WellFormed mpich demoOps demoProcess
    (by
      intro op hop
      simp only [demoOps, List.mem_cons, List.mem_singleton, List.not_mem_nil, or_false] at hop
      rcases hop with rfl | rfl | rfl | rfl | rfl | rfl | rfl <;>
        simp [Op.Admissible, envOk, mpich])
    (by rfl) 2 (by decide) (by rfl)

/-- Neither condition of `Op.Admissible` can be dropped.  After
`GetWorldCommunicator` in a world of four processes, `CopyFrom` with the world
communicator as both target and source leaves it initialized with a null
handle and an empty group.  And were the transport to report, with success, a
world of no process, the world communicator would be initialized with an
empty group. -/
theorem reachable_WellFormed_fails :
    (∃ P, run mpich Process.start [.GetWorldCommunicator envOk, .CopyFrom envOk 0 0] = some P ∧
      0 < P.next ∧
      P.heap 0 = { Handle := none, Group := some ⟨[]⟩, Initialized := true,
                   KeepHandle := true } ∧
      ¬ WellFormed (P.heap 0)) ∧
    (∃ P, run mpich Process.start [.GetWorldCommunicator envEmptyWorld] = some P ∧
      0 < P.next ∧
      P.heap 0 = { Handle := some mpich.MPI_COMM_WORLD, Group := some ⟨[]⟩,
                   Initialized := true, KeepHandle := true } ∧
      ¬ WellFormed (P.heap 0)) := by
  refine ⟨⟨_, rfl, by decide, rfl, ?_⟩, ⟨_, rfl, by decide, rfl, ?_⟩⟩
  · intro hw
    exact (hw rfl).1 rfl
  · intro hw
    obtain ⟨-, g, hg, hpos⟩ := hw rfl
    have e : g = ⟨[]⟩ := (Option.some.inj hg).symm
    subst e
    exact absurd hpos (by decide)

/-- C7 (what the code does): `CopyFrom` and `Duplicate` called on an
initialized communicator with that same communicator as source return
normally and leave it initialized with a null handle and an empty group, so
the invariant does not hold of it: `InitializeCopy` has replaced the group by
a new empty one and reset the handle before the group, the `Initialized` flag
and the handle of the source are read from the same object. -/
theorem self_source_breaks_WellFormed (K : Consts) (E : Env) (h : Heap) (this : Ptr)
    (hI : (h this).Initialized = true) :
    (∃ h' calls, CopyFrom E h this (some this) = some (h', calls) ∧
      h' this = { Handle := none, Group := some ⟨[]⟩, Initialized := true,
                  KeepHandle := (h this).KeepHandle } ∧
      ¬ WellFormed (h' this)) ∧
    (∃ h' calls, Duplicate K E h this (some this) = some (h', calls) ∧
      h' this = { Handle := none, Group := some ⟨[]⟩, Initialized := true,
                  KeepHandle := false } ∧
      ¬ WellFormed (h' this)) := by
  constructor
  · obtain ⟨h', calls, hcf, hthis, -⟩ := CopyFrom_self E h this
    rw [hI] at hthis
    refine ⟨h', calls, hcf, hthis, fun hw => ?_⟩
    rw [hthis] at hw
    exact (hw rfl).1 rfl
  · obtain ⟨h', calls, hd, hthis, -⟩ := Duplicate_self K E h this
    rw [hI] at hthis
    refine ⟨h', calls, hd, hthis, fun hw => ?_⟩
    rw [hthis] at hw
    exact (hw rfl).1 rfl

/-- C7 at reached states: the world communicator of four processes, which
satisfies the invariant, copied onto itself; and the sub-communicator at
address 1 of `demoProcess`, which satisfies it too, duplicated onto itself. -/
theorem self_source_breaks_WellFormed_witness :
    run mpich Process.start [.GetWorldCommunicator envOk] = some worldProcess ∧
      worldProcess.heap 0 = world4 ∧
      (∃ h' calls, CopyFrom envOk worldProcess.heap 0 (some 0) = some (h', calls) ∧
        h' 0 = { Handle := none, Group := some ⟨[]⟩, Initialized := true,
                 KeepHandle := true } ∧
        ¬ WellFormed (h' 0)) ∧
      run mpich Process.start demoOps = some demoProcess ∧
      demoProcess.heap 1 = { Handle := some 2281701378, Group := some ⟨[2, 0]⟩,
                             Initialized := true, KeepHandle := false } ∧
      (∃ h' calls, Duplicate mpich envOk demoProcess.heap 1 (some 1) = some (h', calls) ∧
        h' 1 = { Handle := none, Group := some ⟨[]⟩, Initialized := true,
                 KeepHandle := false } ∧
        ¬ WellFormed (h' 1)) :=
  ⟨by rfl, by rfl,
   (self_source_breaks_WellFormed mpich envOk worldProcess.heap 0 (by rfl)).1,
   by rfl, by rfl,
   (self_source_breaks_WellFormed mpich envOk demoProcess.heap 1 (by rfl)).2⟩

/-! ## Blocking transfers -/

/-- The scratch buffer has the size asked for. -/
theorem Allocate_length (E : Env) (n : Nat) : (Allocate E n).length = n := by
  simp [Allocate]

/-- A write by the transport does not change the size of the buffer. -/
theorem written_length (buf bytes : List Byte) : (written buf bytes).length = buf.length := by
  simp only [written, List.length_take, List.length_append, List.length_drop]
  omega

/-- Staging on the send side hands the transport the first `n` bytes of the
caller's buffer. -/
theorem memcpy_into_scratch (E : Env) (data : List Byte) (n : Nat) (hn : n ≤ data.length) :
    memcpy (Allocate E n) data n = some (data.take n) := by
  simp [memcpy, hn, Allocate_length, List.drop_of_length_le]

/-- Staging on the receive side copies the `n` bytes of the scratch buffer
over the first `n` bytes of the caller's buffer. -/
theorem memcpy_from_scratch (data tmp : List Byte) (n : Nat) (hn : n ≤ data.length)
    (ht : tmp.length = n) :
    memcpy data tmp n = some (tmp ++ data.drop n) := by
  simp [memcpy, hn, ht, List.take_of_length_le]

/-- C8 (counterexample): with staging on, `Send` and `Receive` of length -1
return neither 1 nor 0: the byte count -4 converts to a `size_t` that no
allocation can satisfy, and the transport primitive is never called.  Without
staging the same calls return the translated status.  And on a freshly
constructed communicator, which has no context, `Send` dereferences the null
handle. -/
theorem Send_Receive_status_fails :
    Send mpich envOk world4 1 .int [] (-1) 1 7 = none ∧
      Receive mpich envOk world4 1 .int [] (-1) 1 7 = none ∧
      Send mpich envOk world4 0 .int [] (-1) 1 7 =
        some (1, [.Send [] (-1) .MPI_INT 1 7 1140850688]) ∧
      Receive mpich envOk world4 0 .int [] (-1) 1 7 =
        some (1, [], [.Recv (-1) .MPI_INT 1 7 1140850688]) ∧
      Send mpich envOk vtkMPICommunicator.New 0 .int [1, 2, 3, 4] 1 1 7 = none := by
  refine ⟨by rfl, by rfl, by rfl, by rfl, by rfl⟩

/-- Each `Receive` overload uses the element width and the transport datatype
of the `Send` overload for the same element type. -/
theorem receiveOverload_eq_sendOverload (ty : ElementType) :
    receiveOverload ty = sendOverload ty := by
  cases ty <;> rfl

/-- The element width each `Send` overload passes is the `sizeof` of its type. -/
theorem sendOverload_width (ty : ElementType) : (sendOverload ty).1 = sizeofType ty := by
  cases ty <;> rfl

/-- A byte count that fits a non-negative `int` is passed on unchanged. -/
theorem byteCount_of_fits (length sizeoftype : Int) (n : Nat)
    (hn : (n : Int) = length * sizeoftype) (hfit : length * sizeoftype < 2 ^ 31) :
    byteCount length sizeoftype = some n := by
  unfold byteCount
  have h0 : (0 : Int) ≤ length * sizeoftype := by rw [← hn]; exact Int.ofNat_nonneg n
  have h1 : ¬ (length * sizeoftype < -(2 ^ 31) ∨ 2 ^ 31 ≤ length * sizeoftype) := by
    intro h
    rcases h with h | h
    · have : (-(2 ^ 31) : Int) < 0 := by norm_num
      omega
    · omega
  simp only [h1, if_false, not_lt.mpr h0, Option.some.injEq]
  rw [← hn]
  exact Int.toNat_ofNat n

/-- A write of as many bytes as the buffer holds replaces its content. -/
theorem written_whole (buf bytes : List Byte) (h : bytes.length = buf.length) :
    written buf bytes = bytes := by
  simp [written, ← h, List.drop_of_length_le]

/-- C8 (as amended): on a communicator that has a context, every `Send` and
`Receive` that returns has made exactly one call to the transport primitive
and returns 1 when the status of that call is `MPI_SUCCESS` and 0 otherwise,
with or without staging.  Without staging the call returns for every buffer
and length; with staging it returns whenever `length*sizeof` is a non-negative
`int` byte count within the caller's buffer, and the transport is then handed
a copy of the same bytes. -/
theorem Send_Receive_status (K : Consts) (E : Env) (this : vtkMPICommunicator)
    (UseCopy : Int) (ty : ElementType) (data : List Byte) (length remoteProcessId tag : Int)
    (comm : MPI_Comm) (hH : this.Handle = some comm) :
    (∀ r calls, Send K E this UseCopy ty data length remoteProcessId tag = some (r, calls) →
      ∃ buf, calls = [.Send buf length (sendOverload ty).2 remoteProcessId tag comm] ∧
        r = if E.Send buf length (sendOverload ty).2 remoteProcessId tag comm = K.MPI_SUCCESS
            then 1 else 0) ∧
    (UseCopy = 0 →
      Send K E this UseCopy ty data length remoteProcessId tag =
        some (if E.Send data length (sendOverload ty).2 remoteProcessId tag comm = K.MPI_SUCCESS
              then 1 else 0,
              [.Send data length (sendOverload ty).2 remoteProcessId tag comm])) ∧
    (UseCopy ≠ 0 → ∀ n, byteCount length (sendOverload ty).1 = some n → n ≤ data.length →
      Send K E this UseCopy ty data length remoteProcessId tag =
        some (if E.Send (data.take n) length (sendOverload ty).2 remoteProcessId tag comm
                = K.MPI_SUCCESS then 1 else 0,
              [.Send (data.take n) length (sendOverload ty).2 remoteProcessId tag comm])) ∧
    (∀ r out calls,
      Receive K E this UseCopy ty data length remoteProcessId tag = some (r, out, calls) →
      calls = [.Recv length (receiveOverload ty).2 (sourceRank K remoteProcessId) tag comm] ∧
        r = if (E.Recv length (receiveOverload ty).2 (sourceRank K remoteProcessId) tag comm).1
              = K.MPI_SUCCESS then 1 else 0) ∧
    (UseCopy = 0 →
      Receive K E this UseCopy ty data length remoteProcessId tag =
        some (if (E.Recv length (receiveOverload ty).2 (sourceRank K remoteProcessId) tag comm).1
                = K.MPI_SUCCESS then 1 else 0,
              written data
                (E.Recv length (receiveOverload ty).2 (sourceRank K remoteProcessId) tag comm).2,
              [.Recv length (receiveOverload ty).2 (sourceRank K remoteProcessId) tag comm])) ∧
    (UseCopy ≠ 0 → ∀ n, byteCount length (receiveOverload ty).1 = some n → n ≤ data.length →
      Receive K E this UseCopy ty data length remoteProcessId tag =
        some (if (E.Recv length (receiveOverload ty).2 (sourceRank K remoteProcessId) tag comm).1
                = K.MPI_SUCCESS then 1 else 0,
              written (Allocate E n)
                (E.Recv length (receiveOverload ty).2 (sourceRank K remoteProcessId) tag comm).2
                ++ data.drop n,
              [.Recv length (receiveOverload ty).2 (sourceRank K remoteProcessId) tag comm])) := by
  refine ⟨?_, ?_, ?_, ?_, ?_, ?_⟩
  · intro r calls hres
    unfold Send SendData at hres
    simp only [hH, CheckForMPIError] at hres
    by_cases hu : UseCopy = 0
    · simp only [hu, ne_eq, not_true_eq_false, if_false, Option.some.injEq,
        Prod.mk.injEq] at hres
      exact ⟨data, hres.2.symm, hres.1.symm⟩
    · simp only [hu, ne_eq, not_false_eq_true, if_true] at hres
      cases hb : byteCount length (sendOverload ty).1 with
      | none => simp [hb] at hres
      | some n =>
        simp only [hb] at hres
        cases hm : memcpy (Allocate E n) data n with
        | none => simp [hm] at hres
        | some tmp =>
          simp only [hm, Option.some.injEq, Prod.mk.injEq] at hres
          exact ⟨tmp, hres.2.symm, hres.1.symm⟩
  · intro hu
    simp [Send, SendData, hH, hu, CheckForMPIError]
  · intro hu n hb hn
    simp [Send, SendData, hH, hu, hb, memcpy_into_scratch E data n hn, CheckForMPIError]
  · intro r out calls hres
    unfold Receive ReceiveData at hres
    simp only [hH, CheckForMPIError] at hres
    by_cases hu : UseCopy = 0
    · simp only [hu, ne_eq, not_true_eq_false, if_false, Option.some.injEq,
        Prod.mk.injEq] at hres
      exact ⟨hres.2.2.symm, hres.1.symm⟩
    · simp only [hu, ne_eq, not_false_eq_true, if_true] at hres
      cases hb : byteCount length (receiveOverload ty).1 with
      | none => simp [hb] at hres
      | some n =>
        simp only [hb] at hres
        cases hm : memcpy data (written (Allocate E n)
            (E.Recv length (receiveOverload ty).2 (sourceRank K remoteProcessId) tag comm).2)
            n with
        | none =>
          unfold sourceRank at hm
          simp [hm] at hres
        | some d =>
          unfold sourceRank at hm
          simp only [hm, Option.some.injEq, Prod.mk.injEq] at hres
          exact ⟨hres.2.2.symm, hres.1.symm⟩
  · intro hu
    simp [Receive, ReceiveData, hH, hu, CheckForMPIError, sourceRank]
  · intro hu n hb hn
    have hm := memcpy_from_scratch data
      (written (Allocate E n)
        (E.Recv length (receiveOverload ty).2 (sourceRank K remoteProcessId) tag comm).2) n hn
      (by rw [written_length, Allocate_length])
    unfold sourceRank at hm
    simp [Receive, ReceiveData, hH, hu, hb, hm, CheckForMPIError, sourceRank]

/-- C8 on a concrete call: two `int` elements sent with staging, and received
without staging from any source. -/
theorem Send_Receive_status_witness :
    Send mpich envOk world4 1 .int [1, 2, 3, 4, 5, 6, 7, 8] 2 1 7 =
        some (1, [.Send [1, 2, 3, 4, 5, 6, 7, 8] 2 .MPI_INT 1 7 1140850688]) ∧
      Receive mpich envOk world4 0 .int [1, 2, 3, 4, 5, 6, 7, 8] 2 (-1) 7 =
        some (1, [1, 2, 3, 4, 5, 6, 7, 8], [.Recv 2 .MPI_INT (-2) 7 1140850688]) :=
  ⟨(Send_Receive_status mpich envOk world4 1 .int [1, 2, 3, 4, 5, 6, 7, 8] 2 1 7 1140850688
      rfl).2.2.1 (by decide) 8 rfl (by decide),
   (Send_Receive_status mpich envOk world4 0 .int [1, 2, 3, 4, 5, 6, 7, 8] 2 (-1) 7 1140850688
      rfl).2.2.2.2.1 rfl⟩

/-- Round trip of a message whose byte size fits an `int`: `Send` of a buffer of
`N` elements hands the transport exactly the bytes of the buffer, with or
without staging; and when the transport delivers those bytes with success to
the `Receive` posted for the same element type and count, `Receive` returns 1
and leaves the receiving buffer equal to the buffer sent. -/
theorem Send_Receive_round_trip (K : Consts) (EA EB : Env) (a b : vtkMPICommunicator)
    (useA useB : Int) (ty : ElementType) (data out : List Byte) (N A B T : Int)
    (ca cb : MPI_Comm) (hA : a.Handle = some ca) (hB : b.Handle = some cb)
    (hdata : (data.length : Int) = N * sizeofType ty) (hout : out.length = data.length)
    (hfit : N * sizeofType ty < 2 ^ 31) :
    Send K EA a useA ty data N B T =
        some (CheckForMPIError K (EA.Send data N (sendOverload ty).2 B T ca),
              [.Send data N (sendOverload ty).2 B T ca]) ∧
      (EB.Recv N (sendOverload ty).2 (sourceRank K A) T cb = (K.MPI_SUCCESS, data) →
        Receive K EB b useB ty out N A T =
          some (1, data, [.Recv N (sendOverload ty).2 (sourceRank K A) T cb])) := by
  have hbc : byteCount N (sendOverload ty).1 = some data.length := by
    rw [sendOverload_width]
    exact byteCount_of_fits N (sizeofType ty) data.length hdata hfit
  constructor
  · by_cases hu : useA = 0
    · simp [Send, SendData, hA, hu]
    · simp [Send, SendData, hA, hu, hbc, memcpy_into_scratch EA data data.length le_rfl]
  · intro hdel
    unfold sourceRank at hdel
    by_cases hu : useB = 0
    · simp [Receive, ReceiveData, hB, hu, receiveOverload_eq_sendOverload, hdel,
        CheckForMPIError, written_whole out data hout.symm, sourceRank]
    · have hw : written (Allocate EB data.length) data = data :=
        written_whole _ _ (Allocate_length EB data.length).symm
      have hd : out.drop data.length = [] := List.drop_of_length_le (le_of_eq hout)
      have hm := memcpy_from_scratch out data data.length (le_of_eq hout.symm) rfl
      rw [hd, List.append_nil] at hm
      simp [Receive, ReceiveData, hB, hu, receiveOverload_eq_sendOverload, hbc, hdel,
        CheckForMPIError, hw, hm, sourceRank]

/-- C9 (what the code does): with staging on, `Send` and `Receive` of
268435456 `double` elements (2 GiB) are undefined, whatever the buffer, the
transport and the communicator: the `int` product `length*sizeoftype` is
`2^31`, which overflows. -/
theorem Send_Receive_staged_overflow (K : Consts) (E : Env) (this : vtkMPICommunicator)
    (data : List Byte) (remoteProcessId tag : Int) :
    Send K E this 1 .double data 268435456 remoteProcessId tag = none ∧
      Receive K E this 1 .double data 268435456 remoteProcessId tag = none := by
  constructor
  · simp [Send, SendData, sendOverload, sizeofType, byteCount]
  · simp [Receive, ReceiveData, receiveOverload, sizeofType, byteCount]

/-! ## The world singleton -/

/-- C10: with the singleton slot empty, a successful count query makes
`GetWorldCommunicator` return a new object holding `MPI_COMM_WORLD`, the group
`0, 1, .., n-1`, `Initialized` and `KeepHandle` on, and store it in the slot;
from then on every call, in any state whose slot still holds it, returns that
object, changes nothing and calls the transport no more.  A failed count query
returns null, leaves the slot empty and releases no context. -/
theorem GetWorldCommunicator_singleton (K : Consts) (E : Env) (P : Process)
    (hempty : P.WorldCommunicator = none) :
    ((E.Comm_size K.MPI_COMM_WORLD).1 = K.MPI_SUCCESS →
      ∃ P', GetWorldCommunicator K E P = (some P.next, P', [.Comm_size K.MPI_COMM_WORLD]) ∧
        P'.heap P.next =
          { Handle := some K.MPI_COMM_WORLD,
            Group := some ⟨(List.range (E.Comm_size K.MPI_COMM_WORLD).2.toNat).map Int.ofNat⟩,
            Initialized := true, KeepHandle := true } ∧
        P'.WorldCommunicator = some P.next ∧
        (∀ q, q ≠ P.next → P'.heap q = P.heap q) ∧
        (∀ E', GetWorldCommunicator K E' P' = (some P.next, P', [])) ∧
        (∀ E' Q, Q.WorldCommunicator = some P.next →
          GetWorldCommunicator K E' Q = (some P.next, Q, []))) ∧
    ((E.Comm_size K.MPI_COMM_WORLD).1 ≠ K.MPI_SUCCESS →
      ∃ P', GetWorldCommunicator K E P = (none, P', [.Comm_size K.MPI_COMM_WORLD]) ∧
        P'.WorldCommunicator = none ∧ P'.next = P.next ∧
        (∀ q, q ≠ P.next → P'.heap q = P.heap q)) := by
  constructor
  · intro hok
    unfold GetWorldCommunicator
    simp only [hempty, hok, ne_eq, not_true_eq_false, if_false]
    refine ⟨_, rfl, ?_, rfl, ?_, ?_, ?_⟩
    · simp [KeepHandleOn, SetInitialized, SetGroup, SetHandle, vtkMPICommunicator.New,
        vtkMPIGroup.Initialize, addProcessIds_empty]
    · intro q hq
      simp [KeepHandleOn, SetInitialized, SetGroup, SetHandle,
        Heap.modify_other _ _ _ _ hq, Function.update_noteq hq]
    · intro E'
      simp
    · intro E' Q hQ
      simp [GetWorldCommunicator, hQ]
  · intro hfail
    unfold GetWorldCommunicator
    have hd : ∀ h : Heap, Destructor K (SetHandle h P.next none P.next) = [] := by
      intro h
      simp [Destructor, SetHandle]
    simp only [hempty, hfail, ne_eq, not_false_eq_true, if_true, hd, List.append_nil]
    refine ⟨_, rfl, rfl, rfl, ?_⟩
    · intro q hq
      simp [SetGroup, SetHandle, Heap.modify_other _ _ _ _ hq, Function.update_noteq hq]

/-- C10 on the starting process with a world of four processes. -/
theorem GetWorldCommunicator_singleton_witness :
    (∃ P', GetWorldCommunicator mpich envOk Process.start =
        (some 0, P', [.Comm_size 1140850688]) ∧
      P'.heap 0 = world4 ∧ P'.WorldCommunicator = some 0 ∧
      GetWorldCommunicator mpich envEmptyWorld P' = (some 0, P', [])) :=
  ((GetWorldCommunicator_singleton mpich envOk Process.start rfl).1 rfl).imp
    (fun _ hh => ⟨hh.1, hh.2.1, hh.2.2.1, hh.2.2.2.2.1 envEmptyWorld⟩)

/-! ## Frame of a refused derivation -/

/-- C11 (what the code does): a call of `Initialize` that violates a
precondition (target already initialized, parent uninitialized, subgroup
empty, subgroup larger than the parent's group) returns 0 with no transport
call and leaves every other object, and the handle, group and `Initialized`
flag of the target, as they were.  `KeepHandle` is as it was when the target
is already initialized or the parent is uninitialized; when the call is
refused for its subgroup, `KeepHandle` is off afterwards, whatever it was. -/
theorem Initialize_refused_frame (K : Consts) (E : Env) (h : Heap) (this mpiComm : Ptr)
    (group : vtkMPIGroup)
    (hviol : (h this).Initialized = true ∨ (h mpiComm).Initialized = false ∨
      group.GetNumberOfProcessIds ≤ 0 ∨
      ∀ pg, (h mpiComm).Group = some pg →
        group.GetNumberOfProcessIds > pg.GetNumberOfProcessIds) :
    ∃ h', Initialize K E h this mpiComm group = some (0, h', []) ∧
      (h' this).Handle = (h this).Handle ∧
      (h' this).Group = (h this).Group ∧
      (h' this).Initialized = (h this).Initialized ∧
      (h' this).KeepHandle =
        (if (h this).Initialized = false ∧ (h mpiComm).Initialized = true then false
         else (h this).KeepHandle) ∧
      ∀ q, q ≠ this → h' q = h q := by
  unfold Initialize
  by_cases hI : (h this).Initialized = true
  · exact ⟨h, by simp [hI], rfl, rfl, rfl, by simp [hI], fun _ _ => rfl⟩
  have hIf : (h this).Initialized = false := by simpa using hI
  by_cases hP : (h mpiComm).Initialized = true
  swap
  · exact ⟨h, by simp [hIf, hP], rfl, rfl, rfl, by simp [hP], fun _ _ => rfl⟩
  have hne : mpiComm ≠ this := by
    rintro rfl
    simp [hIf] at hP
  have hg : (KeepHandleOff h this mpiComm) = h mpiComm := by
    simp [KeepHandleOff, Heap.modify_other _ _ _ _ hne]
  have hbad : group.GetNumberOfProcessIds ≤ 0 ∨
      ∀ pg, (h mpiComm).Group = some pg →
        group.GetNumberOfProcessIds > pg.GetNumberOfProcessIds := by
    rcases hviol with hv | hv | hv | hv
    · exact absurd hv hI
    · simp [hP] at hv
    · exact Or.inl hv
    · exact Or.inr hv
  simp only [hIf, hP, Bool.not_true, Bool.false_eq_true, if_false, hg]
  refine ⟨KeepHandleOff h this, ?_, by simp [KeepHandleOff], by simp [KeepHandleOff],
    by simp [KeepHandleOff, hIf], by simp [KeepHandleOff, hIf, hP],
    fun q hq => by simp [KeepHandleOff, Heap.modify_other _ _ _ _ hq]⟩
  by_cases h0 : group.GetNumberOfProcessIds ≤ 0
  · simp [h0]
  · have hgt := hbad.resolve_left h0
    cases hG : (h mpiComm).Group with
    | none => simp [h0]
    | some pg => simp [h0, hgt pg hG]

/-- C11 at a reachable state: the communicator at address 1 of `keepOnProcess`
is uninitialized with `KeepHandle` on; `Initialize` with the world
communicator as parent and an empty subgroup returns 0 and leaves it with
`KeepHandle` off. -/
theorem Initialize_refused_frame_witness :
    run mpich Process.start keepOnOps = some keepOnProcess ∧
      (keepOnProcess.heap 1).KeepHandle = true ∧
      ∃ h', Initialize mpich envOk keepOnProcess.heap 1 0 ⟨[]⟩ = some (0, h', []) ∧
        (h' 1).KeepHandle = false :=
  ⟨by rfl, by rfl,
   (Initialize_refused_frame mpich envOk keepOnProcess.heap 1 0 ⟨[]⟩
      (Or.inr (Or.inr (Or.inl (by decide))))).imp
     (fun _ hh => ⟨hh.1, hh.2.2.2.2.1.trans (by rfl)⟩)⟩

/-! ## Release of transport groups -/

/-- C12 (what the code does): past its precondition checks `Initialize`
returns, and the transport calls it issued keep the discipline of releasing
only group handles obtained (each once) exactly when `MPI_Comm_group` and
`MPI_Group_incl` both returned success.  When `MPI_Comm_group` fails the
group variable it left is passed to `MPI_Group_free`; when `MPI_Group_incl`
fails the subgroup variable it left is. -/
theorem Initialize_group_release (K : Consts) (E : Env) (h : Heap) (this mpiComm : Ptr)
    (group pg : vtkMPIGroup) (pc : MPI_Comm)
    (hI : (h this).Initialized = false) (hP : (h mpiComm).Initialized = true)
    (hG : (h mpiComm).Group = some pg) (hC : (h mpiComm).Handle = some pc)
    (hpos : 0 < group.GetNumberOfProcessIds)
    (hle : group.GetNumberOfProcessIds ≤ pg.GetNumberOfProcessIds) :
    ∃ r h' calls, Initialize K E h this mpiComm group = some (r, h', calls) ∧
      (releasesOnlyObtained K E [] calls = true ↔
        ((superGroupOf E pc).1 = K.MPI_SUCCESS ∧ (subGroupOf E pc group).1 = K.MPI_SUCCESS)) ∧
      ((superGroupOf E pc).1 ≠ K.MPI_SUCCESS →
        calls = [.Comm_group pc, .Group_free (superGroupOf E pc).2]) ∧
      ((superGroupOf E pc).1 = K.MPI_SUCCESS → (subGroupOf E pc group).1 ≠ K.MPI_SUCCESS →
        calls = [.Comm_group pc,
          .Group_incl (superGroupOf E pc).2 group.GetNumberOfProcessIds group.ProcessIds,
          .Group_free (superGroupOf E pc).2, .Group_free (subGroupOf E pc group).2]) := by
  rw [Initialize_steps K E h this mpiComm group pg pc hI hP hG hC hpos hle]
  by_cases h1 : (superGroupOf E pc).1 = K.MPI_SUCCESS
  · by_cases h2 : (subGroupOf E pc group).1 = K.MPI_SUCCESS
    · have h1' : (E.Comm_group pc).1 = K.MPI_SUCCESS := h1
      have h2' : (E.Group_incl (E.Comm_group pc).2 group.GetNumberOfProcessIds
          group.ProcessIds).1 = K.MPI_SUCCESS := h2
      have hcheck : releasesOnlyObtained K E []
          [.Comm_group pc,
           .Group_incl (superGroupOf E pc).2 group.GetNumberOfProcessIds group.ProcessIds,
           .Group_free (superGroupOf E pc).2,
           .Comm_create pc (subGroupOf E pc group).2,
           .Group_free (subGroupOf E pc group).2] = true := by
        by_cases hs : (subGroupOf E pc group).2 = (superGroupOf E pc).2
        · simp only [superGroupOf, subGroupOf] at hs
          simp [releasesOnlyObtained, superGroupOf, subGroupOf, h1', h2', hs]
        · simp only [superGroupOf, subGroupOf] at hs
          simp [releasesOnlyObtained, superGroupOf, subGroupOf, h1', h2', hs,
            List.erase_cons, Ne.symm hs]
      by_cases h3 : (newCommOf E pc group).1 = K.MPI_SUCCESS
      · simp only [h1, h2, h3, ne_eq, not_true_eq_false, if_false]
        exact ⟨_, _, _, rfl, by simp [hcheck], by simp, by simp⟩
      · simp only [h1, h2, h3, ne_eq, not_true_eq_false, not_false_eq_true, if_false, if_true]
        exact ⟨_, _, _, rfl, by simp [hcheck], by simp, by simp⟩
    · have h1' : (E.Comm_group pc).1 = K.MPI_SUCCESS := h1
      have h2' : ¬ (E.Group_incl (E.Comm_group pc).2 group.GetNumberOfProcessIds
          group.ProcessIds).1 = K.MPI_SUCCESS := h2
      simp only [h1, h2, ne_eq, not_true_eq_false, not_false_eq_true, if_false, if_true]
      refine ⟨_, _, _, rfl, ?_, by simp, by simp⟩
      simp [releasesOnlyObtained, superGroupOf, subGroupOf, h1', h2']
  · have h1' : ¬ (E.Comm_group pc).1 = K.MPI_SUCCESS := h1
    simp only [h1, ne_eq, not_false_eq_true, if_true]
    refine ⟨_, _, _, rfl, ?_, by simp, by simp⟩
    simp [releasesOnlyObtained, superGroupOf, h1']

/-- C12 on a concrete heap: `MPI_Comm_group` on the world context fails with
status 16 and leaves 99 in the group variable, which `Initialize` then passes
to `MPI_Group_free`. -/
theorem Initialize_group_release_witness :
    ∃ r h' calls, Initialize mpich envGroupFails heap0 1 0 ⟨[2, 0]⟩ = some (r, h', calls) ∧
      calls = [.Comm_group 1140850688, .Group_free 99] ∧
      releasesOnlyObtained mpich envGroupFails [] calls = false :=
  (Initialize_group_release mpich envGroupFails heap0 1 0 ⟨[2, 0]⟩ ⟨[0, 1, 2, 3]⟩ 1140850688
    rfl rfl rfl rfl (by decide) (by decide)).imp
    (fun _ hr => hr.imp (fun _ hh => hh.imp (fun _ hc =>
      ⟨hc.1, hc.2.2.1 (by decide), by rw [hc.2.2.1 (by decide)]; rfl⟩)))

/-! ## Release of the context on reset -/

/-- The transport calls of `InitializeCopy` from another object that has a
group are those of the reset of the handle the target had. -/
theorem InitializeCopy_other_calls (h : Heap) (this src : Ptr) (sg : vtkMPIGroup)
    (hne : src ≠ this) (hG : (h src).Group = some sg) :
    ∃ h', InitializeCopy h this (some src) = some (h', releaseOnReset (h this)) ∧
      ∀ q, q ≠ this → h' q = h q := by
  have e1 : SetGroup (SetGroup h this none) this (some vtkMPIGroup.New) src = h src := by
    simp [SetGroup, Heap.modify_other _ _ _ _ hne]
  obtain ⟨h1, calls, hic, -, hother, -⟩ := InitializeCopy_other h this src sg hne hG
  have hcalls : calls = releaseOnReset (h this) := by
    unfold InitializeCopy at hic
    simp only [e1, hG, Option.some.injEq, Prod.mk.injEq] at hic
    rw [← hic.2]
    simp [SetGroup, releaseOnReset]
  rw [hcalls] at hic
  exact ⟨h1, hic, hother⟩

/-- C13 (what the code does): when the target owns a handle that holds
`MPI_COMM_NULL`, `InitializeCopy`, and with it `CopyFrom` and `Duplicate`,
from another communicator passes `MPI_COMM_NULL` to `MPI_Comm_free`, while
the destructor run on the same target issues no call: the reset of the
handle lacks the test against `MPI_COMM_NULL` that the destructor makes. -/
theorem InitializeCopy_releases_null_context (K : Consts) (E : Env) (h : Heap)
    (this src : Ptr) (sg : vtkMPIGroup)
    (hne : src ≠ this) (hG : (h src).Group = some sg)
    (hH : (h this).Handle = some K.MPI_COMM_NULL) (hK : (h this).KeepHandle = false) :
    (∃ h', InitializeCopy h this (some src) = some (h', [.Comm_free K.MPI_COMM_NULL])) ∧
    (∃ h', CopyFrom E h this (some src) = some (h', [.Comm_free K.MPI_COMM_NULL])) ∧
    (∃ h' calls, Duplicate K E h this (some src) =
      some (h', .Comm_free K.MPI_COMM_NULL :: calls)) ∧
    releaseOnReset (h this) = [.Comm_free K.MPI_COMM_NULL] ∧
    Destructor K (h this) = [] := by
  obtain ⟨h1, hic, hother⟩ := InitializeCopy_other_calls h this src sg hne hG
  have hr : releaseOnReset (h this) = [.Comm_free K.MPI_COMM_NULL] := by
    simp [releaseOnReset, hH, hK]
  rw [hr] at hic
  refine ⟨⟨h1, hic⟩, ?_, ?_, hr, by simp [Destructor, hH]⟩
  · unfold CopyFrom
    simp only [hic]
    cases hC : (h1 src).Handle with
    | none => exact ⟨_, rfl⟩
    | some comm =>
      have hs2 : (SetHandle (KeepHandleOn h1 this) this (some E.uninit) src).Handle
          = some comm := by
        simp [SetHandle, KeepHandleOn, Heap.modify_other _ _ _ _ hne, hC]
      simp only [hs2]
      exact ⟨_, rfl⟩
  · unfold Duplicate
    simp only [hic]
    cases hC : (KeepHandleOff h1 this src).Handle with
    | none => exact ⟨_, [], rfl⟩
    | some comm =>
      have hs2 : (SetHandle (KeepHandleOff h1 this) this (some E.uninit) src).Handle
          = some comm := by
        have : (h1 src).Handle = some comm := by
          simpa [KeepHandleOff, Heap.modify_other _ _ _ _ hne] using hC
        simp [SetHandle, KeepHandleOff, Heap.modify_other _ _ _ _ hne, this]
      simp only [hs2, ite_self]
      exact ⟨_, [.Comm_dup comm], rfl⟩

/-- C13 at a reachable state: the communicator at address 1 of
`nullCommProcess` was initialized on a process outside its subgroup and owns
`MPI_COMM_NULL`; `CopyFrom` the world communicator passes it to
`MPI_Comm_free`, which the destructor would not. -/
theorem InitializeCopy_releases_null_context_witness :
    run mpich Process.start nullCommOps = some nullCommProcess ∧
      (∃ h', CopyFrom envOk nullCommProcess.heap 1 (some 0) =
        some (h', [.Comm_free 67108864])) ∧
      (∃ h' calls, Duplicate mpich envOk nullCommProcess.heap 1 (some 0) =
        some (h', .Comm_free 67108864 :: calls)) ∧
      Destructor mpich (nullCommProcess.heap 1) = [] :=
  ⟨by rfl,
   (InitializeCopy_releases_null_context mpich envOk nullCommProcess.heap 1 0 ⟨[0, 1, 2, 3]⟩
      (by decide) (by rfl) (by rfl) (by rfl)).2.1,
   (InitializeCopy_releases_null_context mpich envOk nullCommProcess.heap 1 0 ⟨[0, 1, 2, 3]⟩
      (by decide) (by rfl) (by rfl) (by rfl)).2.2.1,
   (InitializeCopy_releases_null_context mpich envOk nullCommProcess.heap 1 0 ⟨[0, 1, 2, 3]⟩
      (by decide) (by rfl) (by rfl) (by rfl)).2.2.2.2⟩

end VtkMPI
